import Mathlib

/-!
# Rule-overlap analysis of `go_hba_rules` (package `pkg/hba`)

A shallow embedding of the address-set model (`addr.go`), the rule model
(`types.go`), the pairwise overlap classifier (`overlap.go`), the per-rule checks
(`checks.go`, `ident.go`) and the exit-code decision (`cmd/hba-check/main.go`),
followed by the properties of the specification settled against it.

Conventions of the embedding:

* a Go `string` is a Lean `String`, a Go `int` is an `Int`, a Go `byte` is a `Nat`
  below 256, a slice is a `List`;
* a Go `map[string]string` is an `AList`: a finite association list with pairwise
  distinct keys, read through `lookup`; the loops over a map only ever answer
  "does every entry satisfy ...", so the iteration order is immaterial;
* `net.IP` and `net.IPMask` are byte lists, `*net.IPNet` is the record `IPNet`;
  the methods of Go's standard library `net` package that the source calls
  (`IP.To4`, `IPMask.Size`, `IPNet.Contains`, `CIDRMask`) are transcribed from the
  library at byte level;
* `fmt.Sprintf` with a single `%d` verb is string concatenation around `toString`;
* `strings.ToLower`, `net.ParseCIDR` and `net.ParseIP` are parameters (`StdLib`); the
  calls of `mustCIDR` on constant literals are replaced by their values.
-/

namespace hba

/-! ## Go standard library: `net.IP`, `net.IPMask`, `net.IPNet` -/

/-- Record `net.IPNet`: the address bytes and the mask bytes of a network. -/
structure IPNet where
  IP : List Nat
  Mask : List Nat
deriving DecidableEq, Repr

/-- Method `net.IP.To4`: the 4-byte form of an IPv4 address (given either as 4
bytes or as a 16-byte IPv4-mapped address), `none` (Go `nil`) otherwise. -/
def To4 (ip : List Nat) : Option (List Nat) :=
  if ip.length = 4 then some ip
  else if ip.length = 16 ∧ (ip.take 10).all (fun v => v == 0) = true
      ∧ ip.getD 10 0 = 255 ∧ ip.getD 11 0 = 255 then some (ip.drop 12)
  else none

/-- Inner loop of `net.simpleMaskLength`: `for v&0x80 != 0 { n++; v <<= 1 }` on a
byte `v`; returns the number of iterations and the final `v`. A byte is zero after
eight shifts, so eight rounds of fuel are never used up. -/
def leadingOnes : Nat → Nat → Nat × Nat
  | 0, v => (0, v)
  | fuel + 1, v =>
    if v &&& 0x80 ≠ 0 then
      let r := leadingOnes fuel ((v <<< 1) % 256)
      (r.1 + 1, r.2)
    else (0, v)

/-- Function `net.simpleMaskLength`: the number of leading one bits of a mask of the
form `1...10...0`, `none` (Go `-1`) for any other mask. -/
def simpleMaskLength : List Nat → Option Nat
  | [] => some 0
  | v :: rest =>
    if v = 0xff then (simpleMaskLength rest).map (fun n => n + 8)
    else
      let r := leadingOnes 8 v
      if r.2 ≠ 0 then none
      else if rest.all (fun w => w == 0) then some r.1
      else none

/-- First result of `net.IPMask.Size`: the count of leading ones, `0` when the mask
is not in canonical form. -/
def maskOnes (m : List Nat) : Nat :=
  (simpleMaskLength m).getD 0

/-- Loop of `net.CIDRMask` producing `l` mask bytes from `n` remaining one bits. -/
def cidrMaskBytes : Nat → Nat → List Nat
  | 0, _ => []
  | l + 1, n =>
    if n ≥ 8 then 0xff :: cidrMaskBytes l (n - 8)
    else (0xff - (0xff >>> n)) :: cidrMaskBytes l 0

/-- Function `net.CIDRMask ones bits`: `none` (Go `nil`) unless `bits` is 32 or 128
and `ones ≤ bits`. -/
def CIDRMask (ones bits : Nat) : Option (List Nat) :=
  if bits ≠ 32 ∧ bits ≠ 128 then none
  else if ones > bits then none
  else some (cidrMaskBytes (bits / 8) ones)

/-- Function `net.networkNumberAndMask`: address and mask of a network brought to
the same length, `none` (Go `nil, nil`) for an inconsistent record. -/
def networkNumberAndMask (n : IPNet) : Option (List Nat × List Nat) :=
  let ipOpt : Option (List Nat) :=
    match To4 n.IP with
    | some x => some x
    | none => if n.IP.length ≠ 16 then none else some n.IP
  match ipOpt with
  | none => none
  | some ip =>
    if n.Mask.length = 4 then
      if ip.length ≠ 4 then none else some (ip, n.Mask)
    else if n.Mask.length = 16 then
      if ip.length = 4 then some (ip, n.Mask.drop 12) else some (ip, n.Mask)
    else none

/-- Method `net.IPNet.Contains`: the address agrees with the network number on
every mask bit. -/
def IPNet.Contains (n : IPNet) (ip : List Nat) : Bool :=
  let nm := (networkNumberAndMask n).getD ([], [])
  let nn := nm.1
  let m := nm.2
  let ip := (To4 ip).getD ip
  let l := ip.length
  if l ≠ nn.length then false
  else (List.range l).all
    (fun i => (nn.getD i 0 &&& m.getD i 0) == (ip.getD i 0 &&& m.getD i 0))

/-! ## `addr.go` -/

/-- Record `AddrSet` of `addr.go`. -/
structure AddrSet where
  Any : Bool
  Special : String
  Networks : List IPNet
  HasIPv4 : Bool
  HasIPv6 : Bool
  OrigToken : String
deriving DecidableEq, Repr

/-- Function `sameFamily` of `addr.go`. -/
def sameFamily (a b : IPNet) : Bool :=
  (To4 a.IP).isSome == (To4 b.IP).isSome

/-- Function `cidrContains` of `addr.go`. -/
def cidrContains (a b : IPNet) : Bool :=
  if !a.Contains b.IP then false
  else
    let aOnes := maskOnes a.Mask
    let bOnes := maskOnes b.Mask
    decide (aOnes ≤ bOnes)

/-- Function `cidrOverlaps` of `addr.go`. -/
def cidrOverlaps (a b : IPNet) : Bool :=
  a.Contains b.IP || b.Contains a.IP

/-- Method `AddrSet.IsWideWith` of `addr.go`. -/
def AddrSet.IsWideWith (a : AddrSet) (v4Prefix v6Prefix : Int) : Bool :=
  if a.Any then true
  else a.Networks.any (fun n =>
    let ones : Int := maskOnes n.Mask
    if (To4 n.IP).isSome then decide (ones ≤ v4Prefix)
    else decide (ones ≤ v6Prefix))

/-- Method `AddrSet.Covers` of `addr.go`. -/
def AddrSet.Covers (a b : AddrSet) : Bool :=
  if a.Any then true
  else if b.Any then false
  else if b.Networks.length = 0 then false
  else b.Networks.all (fun bn =>
    a.Networks.any (fun an => sameFamily an bn && cidrContains an bn))

/-- Method `AddrSet.Intersects` of `addr.go`. -/
def AddrSet.Intersects (a b : AddrSet) : Bool :=
  if a.Any || b.Any then true
  else a.Networks.any (fun an =>
    b.Networks.any (fun bn => sameFamily an bn && cidrOverlaps an bn))

/-! ## `types.go` -/

/-- Type `Severity` of `types.go`, a Go string type. -/
abbrev Severity := String

/-- Constant `SeverityError`. -/
def SeverityError : Severity := "ERROR"

/-- Constant `SeverityWarn`. -/
def SeverityWarn : Severity := "WARN"

/-- Constant `SeverityInfo`. -/
def SeverityInfo : Severity := "INFO"

/-- Record `Issue` of `types.go`. -/
structure Issue where
  Severity : Severity
  Code : String
  Line : Int
  Message : String
deriving DecidableEq, Repr

/-- Go type `map[string]string` of the auth options. -/
abbrev OptMap := AList (fun _ : String => String)

/-- Record `Rule` of `types.go`. -/
structure Rule where
  Line : Int
  Raw : String
  Type_ : String
  DBs : List String
  Users : List String
  Addr : AddrSet
  Method : String
  Opts : OptMap

/-- Function `containsToken` of `parser.go`. -/
def containsToken (list : List String) (token : String) : Bool :=
  list.any (fun v => v == token)

/-- Method `Rule.IsHost` of `types.go`. -/
def Rule.IsHost (r : Rule) : Bool :=
  r.Type_ == "host" || r.Type_ == "hostssl" || r.Type_ == "hostnossl"
    || r.Type_ == "hostgssenc" || r.Type_ == "hostnogssenc"

/-! ## `overlap.go` -/

/-- Function `compatibleType` of `overlap.go`. -/
def compatibleType (a b : String) : Bool :=
  if a == b then true
  else if a == "host" && (b == "host" || b == "hostssl" || b == "hostnossl"
      || b == "hostgssenc" || b == "hostnogssenc") then true
  else if b == "host" && (a == "host" || a == "hostssl" || a == "hostnossl"
      || a == "hostgssenc" || a == "hostnogssenc") then true
  else false

/-- Function `dbCovers` of `overlap.go`. -/
def dbCovers (a b : List String) : Bool :=
  if containsToken a "all" then true
  else if containsToken b "all" then false
  else b.all (fun v => containsToken a v)

/-- Function `dbIntersects` of `overlap.go`. -/
def dbIntersects (a b : List String) : Bool :=
  if containsToken a "all" || containsToken b "all" then true
  else a.any (fun v => containsToken b v)

/-- Function `userCovers` of `overlap.go`. -/
def userCovers (a b : List String) : Bool :=
  if containsToken a "all" then true
  else if containsToken b "all" then false
  else b.all (fun v => containsToken a v)

/-- Function `userIntersects` of `overlap.go`. -/
def userIntersects (a b : List String) : Bool :=
  if containsToken a "all" || containsToken b "all" then true
  else a.any (fun v => containsToken b v)

/-- Function `optsNotStricter` of `overlap.go`: every entry `k, v` of `a` satisfies
`bv, ok := b[k]; ok && bv == v`. -/
def optsNotStricter (a b : OptMap) : Bool :=
  a.entries.all (fun e =>
    match b.lookup e.1 with
    | some bv => bv == e.2
    | none => false)

/-- Function `optsEqual` of `overlap.go`; the read `b[k]` of an absent key is the
empty string. -/
def optsEqual (a b : OptMap) : Bool :=
  if a.entries.length ≠ b.entries.length then false
  else a.entries.all (fun e => (b.lookup e.1).getD "" == e.2)

/-- Table `weak` in `isWeaker`. -/
def weak (m : String) : Bool :=
  m == "trust" || m == "md5" || m == "password"

/-- Table `strong` in `isWeaker`. -/
def strong (m : String) : Bool :=
  m == "scram-sha-256" || m == "cert" || m == "gss" || m == "sspi" || m == "ldap"
    || m == "pam" || m == "radius" || m == "peer" || m == "ident"

/-- Function `isWeaker` of `overlap.go`. -/
def isWeaker (upper lower : String) : Bool :=
  if weak upper && strong lower then true else false

/-- Function `overlapIssues` of `overlap.go`; the local slice `issues` is threaded
through the three conditional appends. -/
def overlapIssues (upper lower : Rule) : List Issue :=
  if upper.Method == "reject" && lower.Method != "reject" then
    [{ Severity := SeverityError, Code := "shadowedByReject", Line := lower.Line,
       Message := "Rule is shadowed by reject at line " ++ toString upper.Line ++ "." }]
  else
    let issues : List Issue :=
      if upper.Type_ == "host" && (lower.Type_ == "hostssl" || lower.Type_ == "hostnossl") then
        [{ Severity := SeverityWarn, Code := "shadowedByHost", Line := lower.Line,
           Message := "host rule at line " ++ toString upper.Line ++ " shadows this rule." }]
      else []
    if isWeaker upper.Method lower.Method then
      issues ++
        [{ Severity := SeverityWarn, Code := "overlyBroadRule", Line := upper.Line,
           Message := "Broad rule shadows stricter rule at line " ++ toString lower.Line ++ "." },
         { Severity := SeverityWarn, Code := "shadowedByBroadRule", Line := lower.Line,
           Message := "Rule is shadowed by broader rule at line " ++ toString upper.Line ++ "." }]
    else if upper.Method == lower.Method && optsEqual upper.Opts lower.Opts then
      issues ++
        [{ Severity := SeverityInfo, Code := "redundantRule", Line := lower.Line,
           Message := "Rule is redundant due to line " ++ toString upper.Line ++ "." }]
    else
      issues ++
        [{ Severity := SeverityWarn, Code := "shadowedRule", Line := lower.Line,
           Message := "Rule is fully shadowed by line " ++ toString upper.Line ++ "." }]

/-- Body of the inner loop of `CheckOverlaps` for the pair `ri = rules[i]`,
`rj = rules[j]`: the issues it appends (`continue` appends nothing; the empty
`if ri.Type == "local" && rj.Type == "local"` block does nothing). -/
def pairIssues (ri rj : Rule) : List Issue :=
  if !compatibleType ri.Type_ rj.Type_ then []
  else if !ri.Addr.Covers rj.Addr && !ri.Addr.Intersects rj.Addr then []
  else if !dbCovers ri.DBs rj.DBs && !dbIntersects ri.DBs rj.DBs then []
  else if !userCovers ri.Users rj.Users && !userIntersects ri.Users rj.Users then []
  else
    let covers := ri.Addr.Covers rj.Addr && dbCovers ri.DBs rj.DBs
      && userCovers ri.Users rj.Users && optsNotStricter ri.Opts rj.Opts
    let intersects := ri.Addr.Intersects rj.Addr && dbIntersects ri.DBs rj.DBs
      && userIntersects ri.Users rj.Users
    if covers then overlapIssues ri rj
    else if intersects then
      [{ Severity := SeverityWarn, Code := "partialOverlap", Line := rj.Line,
         Message := "Rule partially overlaps with line " ++ toString ri.Line ++ "." }]
    else []

/-- Inner loop of `CheckOverlaps`: `for i := 0; i < j; i++` with `rj = rules[j]`,
appending to `issues`. -/
def overlapsInner (rules : List Rule) (rj : Rule) (j : Nat) (issues : List Issue) :
    List Issue :=
  (List.range j).foldl
    (fun acc i =>
      match rules[i]? with
      | some ri => acc ++ pairIssues ri rj
      | none => acc)
    issues

/-- Function `CheckOverlaps` of `overlap.go`: `for j := 0; j < len(rules); j++`
around the inner loop, with the slice `issues` as the loop state. -/
def CheckOverlaps (rules : List Rule) : List Issue :=
  (List.range rules.length).foldl
    (fun acc j =>
      match rules[j]? with
      | some rj => overlapsInner rules rj j acc
      | none => acc)
    []

/-! ## Well-formed networks -/

/-- A network is well formed when it is a CIDR block of Go's `net` package: an
address of 4 or 16 bytes, and a mask `CIDRMask ones 32` on an IPv4 address or
`CIDRMask ones 128` on any address. Every network stored by `ParseAddr` has this
shape. -/
def IPNet.WellFormed (n : IPNet) : Bool :=
  (n.IP.length == 4 || n.IP.length == 16) && n.IP.all (fun v => decide (v < 256))
    && (((To4 n.IP).isSome && (List.range 33).any (fun k => CIDRMask k 32 == some n.Mask))
      || (List.range 129).any (fun k => CIDRMask k 128 == some n.Mask))

/-- An address set is well formed when each of its networks is. -/
def AddrSet.WellFormed (a : AddrSet) : Bool :=
  a.Networks.all (fun n => n.WellFormed)

/-! ## The rules of the specification's examples, as `ParseHBA` builds them -/

/-- The 16-byte form in which `net.ParseCIDR` returns the IPv4 address `a.b.c.d`. -/
def ipv4 (a b c d : Nat) : List Nat :=
  [0, 0, 0, 0, 0, 0, 0, 0, 0, 0, 0xff, 0xff, a, b, c, d]

/-- The network `ParseAddr` stores for the literal `a.b.c.d/ones`: the mask of
`net.ParseCIDR` and, after `ipnet.IP = ip`, the address as written. -/
def cidr4 (a b c d ones : Nat) : IPNet :=
  { IP := ipv4 a b c d, Mask := (CIDRMask ones 32).getD [] }

/-- The address set `ParseAddr` returns for the literal `a.b.c.d/ones` spelled `tok`. -/
def addrCIDR4 (tok : String) (a b c d ones : Nat) : AddrSet :=
  { Any := false, Special := "", Networks := [cidr4 a b c d ones],
    HasIPv4 := true, HasIPv6 := false, OrigToken := tok }

/-- The address set `ParseAddr` returns for the keyword `all`. -/
def addrAll : AddrSet :=
  { Any := true, Special := "", Networks := [], HasIPv4 := false, HasIPv6 := false,
    OrigToken := "all" }

/-- The zero value `AddrSet{}`: not `Any`, no network. -/
def addrZero : AddrSet :=
  { Any := false, Special := "", Networks := [], HasIPv4 := false, HasIPv6 := false,
    OrigToken := "" }

/-! ## Go standard library: `strings`, and the parsers of `net` -/

/-- Function `unicode.IsSpace`, the test `strings.TrimSpace` trims by: the Latin-1
spaces `\t \n \v \f \r`, the blank, U+0085, U+00A0, and the characters of category
`White_Space` beyond Latin-1. -/
def isSpace (c : Char) : Bool :=
  let n := c.toNat
  (9 ≤ n && n ≤ 13) || n == 0x20 || n == 0x85 || n == 0xA0 || n == 0x1680
    || (0x2000 ≤ n && n ≤ 0x200a) || n == 0x2028 || n == 0x2029 || n == 0x202f
    || n == 0x205f || n == 0x3000

/-- Function `strings.TrimSpace`. -/
def TrimSpace (s : String) : String :=
  String.mk (((s.data.dropWhile isSpace).reverse.dropWhile isSpace).reverse)

/-- What `strings.ToLower` returns on a string of ASCII characters: the letters `A` to
`Z` lowered, every other character as it is. It stands for the library function in
the closed examples only, whose strings are ASCII. -/
def lowerASCII (s : String) : String :=
  String.mk (s.data.map (fun c =>
    if 65 ≤ c.toNat ∧ c.toNat ≤ 90 then Char.ofNat (c.toNat + 32) else c))

/-- Test `strings.Contains(s, "/")`. -/
def containsSlash (s : String) : Bool :=
  s.data.any (fun c => c.toNat == 47)

/-- The functions of Go's standard library that the source calls and that are taken
as parameters: `strings.ToLower`, whose result on letters beyond ASCII follows the
Unicode tables of the Go release, and the two parsers of the `net` package that
`ParseAddr` hands the token to. `ParseCIDR` returns the address as written
(16 bytes) and the network (masked address and mask), `ParseIP` the address
(16 bytes); `none` is a parse error. -/
structure StdLib where
  ToLower : String → String
  ParseCIDR : String → Option (List Nat × IPNet)
  ParseIP : String → Option (List Nat)

/-! ## `addr.go`: parsing and the loopback test -/

/-- Function `mustCIDR` of `addr.go`, on the pair `ip, ipnet` that `net.ParseCIDR`
returns for its argument: `ipnet.IP = ip; return ipnet`. -/
def mustCIDR (ip : List Nat) (ipnet : IPNet) : IPNet :=
  { ipnet with IP := ip }

/-- The address `::1` in 16 bytes. -/
def ipv6Loopback : List Nat :=
  [0, 0, 0, 0, 0, 0, 0, 0, 0, 0, 0, 0, 0, 0, 0, 1]

/-- Value of `mustCIDR("127.0.0.0/8")`: `net.ParseCIDR` returns the address
`127.0.0.0` in 16 bytes and the network `127.0.0.0` with mask `CIDRMask(8, 32)`. -/
def loop4 : IPNet :=
  mustCIDR (ipv4 127 0 0 0) { IP := [127, 0, 0, 0], Mask := (CIDRMask 8 32).getD [] }

/-- Value of `mustCIDR("::1/128")`: `net.ParseCIDR` returns the address `::1` and the
network `::1` with mask `CIDRMask(128, 128)`. -/
def loop6 : IPNet :=
  mustCIDR ipv6Loopback { IP := ipv6Loopback, Mask := (CIDRMask 128 128).getD [] }

/-- Value of `mustCIDR("127.0.0.1/32")`. -/
def host127 : IPNet :=
  mustCIDR (ipv4 127 0 0 1) { IP := [127, 0, 0, 1], Mask := (CIDRMask 32 32).getD [] }

/-- Value of `mustCIDR(ip.String() + "/32")` for an address with `ip.To4() = x`:
printing and parsing give the address back in 16 bytes, under the full 4-byte mask. -/
def mustHost4 (x : List Nat) : IPNet :=
  mustCIDR ([0, 0, 0, 0, 0, 0, 0, 0, 0, 0, 0xff, 0xff] ++ x)
    { IP := x, Mask := (CIDRMask 32 32).getD [] }

/-- Value of `mustCIDR(ip.String() + "/128")` for an IPv6 address `ip`: printing and
parsing give the address back, under the full 16-byte mask. -/
def mustHost6 (ip : List Nat) : IPNet :=
  mustCIDR ip { IP := ip, Mask := (CIDRMask 128 128).getD [] }

/-- Function `ParseAddr` of `addr.go`; the Go pair `(AddrSet, error)` is an `Except`
whose error carries the message. -/
def ParseAddr (lib : StdLib) (token : String) : Except String AddrSet :=
  let addr : AddrSet :=
    { Any := false, Special := "", Networks := [], HasIPv4 := false, HasIPv6 := false,
      OrigToken := token }
  let s := lib.ToLower (TrimSpace token)
  if s = "all" then
    .ok { addr with Any := true }
  else if s = "samehost" then
    .ok { addr with Special := "samehost", Networks := [host127, loop6],
                    HasIPv4 := true, HasIPv6 := true }
  else if s = "samenet" then
    .ok { addr with Special := "samenet", Any := true }
  else if containsSlash s then
    match lib.ParseCIDR s with
    | none => .error ("invalid cidr: " ++ token)
    | some (ip, ipnet) =>
      .ok { addr with Networks := [{ ipnet with IP := ip }],
                      HasIPv4 := (To4 ip).isSome, HasIPv6 := (To4 ip).isNone }
  else
    match lib.ParseIP s with
    | none => .error ("invalid ip: " ++ token)
    | some ip =>
      match To4 ip with
      | some x => .ok { addr with Networks := [mustHost4 x], HasIPv4 := true }
      | none => .ok { addr with Networks := [mustHost6 ip], HasIPv6 := true }

/-- Method `AddrSet.IsLoopbackOnly` of `addr.go`. -/
def AddrSet.IsLoopbackOnly (a : AddrSet) : Bool :=
  if a.Any then false
  else if a.Networks.length = 0 then false
  else a.Networks.all (fun n =>
    if (To4 n.IP).isSome then cidrContains loop4 n
    else cidrContains loop6 n)

/-! ## `ident.go` and `checks.go` -/

/-- Record `IdentMap` of `ident.go`; the Go `map[string]bool` reads `false` at an
absent key. -/
structure IdentMap where
  Maps : AList (fun _ : String => Bool)

/-- Method `IdentMap.Has` of `ident.go`. -/
def IdentMap.Has (lib : StdLib) (m : IdentMap) (name : String) : Bool :=
  if name = "" then false
  else (m.Maps.lookup (lib.ToLower name)).getD false

/-- Record `Config` of `checks.go`. -/
structure Config where
  SSLOn : Bool
  Ident : IdentMap
  WideV4 : Int
  WideV6 : Int

/-- Body of the loop of `CheckSimpleRules` for the rule `r`, under the configuration
`cfg` with its defaults filled in: the findings it appends, in order. -/
def simpleRuleIssues (lib : StdLib) (cfg : Config) (r : Rule) : List Issue :=
  (if r.IsHost && r.Method == "trust" then
    [{ Severity := SeverityError, Code := "trustNetwork", Line := r.Line,
       Message := "Unsafe: trust for network connections. Any client can log in as any user without a password." }]
   else [])
  ++ (if r.Method == "password" then
      if cfg.SSLOn then
        if r.Type_ == "hostssl" then
          [{ Severity := SeverityWarn, Code := "passwordWithTLS", Line := r.Line,
             Message := "Password method sends cleartext password. Use scram-sha-256 or stronger." }]
        else
          [{ Severity := SeverityError, Code := "passwordNoTLS", Line := r.Line,
             Message := "Unsafe: password method without guaranteed TLS. Use hostssl + scram-sha-256." }]
      else
        [{ Severity := SeverityError, Code := "passwordNoSSL", Line := r.Line,
           Message := "SSL is off; method=password always sends credentials in cleartext." }]
    else [])
  ++ (if cfg.SSLOn then
      if (r.Type_ == "host" || r.Type_ == "hostnossl") && !r.Addr.IsLoopbackOnly then
        [{ Severity := SeverityWarn, Code := "nonTLSPath", Line := r.Line,
           Message := "Non-TLS path exists (host/hostnossl). If TLS is required, switch to hostssl." }]
      else []
    else
      if r.Type_ == "hostssl" then
        [{ Severity := SeverityError, Code := "hostsslNoSSL", Line := r.Line,
           Message := "Server ssl=off: hostssl rule will never match. Enable ssl or change to host with proper security." }]
      else [])
  ++ (if r.Method == "md5" then
      [{ Severity := SeverityWarn, Code := "md5Deprecated", Line := r.Line,
         Message := "MD5 auth is deprecated. Migrate to scram-sha-256." }]
    else [])
  ++ (if r.IsHost && r.Addr.IsWideWith cfg.WideV4 cfg.WideV6 then
      [{ Severity := SeverityWarn, Code := "wideAddress", Line := r.Line,
         Message := "Address range is too wide: " ++ r.Addr.OrigToken ++ "." }]
    else [])
  ++ (if containsToken r.DBs "all" && containsToken r.Users "all" then
      [{ Severity := SeverityWarn, Code := "allDbAllUser", Line := r.Line,
         Message := "Overly broad access: database=all and user=all." }]
    else [])
  ++ (if containsToken r.DBs "replication" && r.Method != "reject" then
      if r.Addr.IsWideWith cfg.WideV4 cfg.WideV6 || containsToken r.Users "all" then
        [{ Severity := SeverityError, Code := "replicationWideAccess", Line := r.Line,
           Message := "Replication access from wide network or all users. Restrict to replica IPs and dedicated user." }]
      else []
    else [])
  ++ (if r.Method == "ident" then
      let mapName := lib.ToLower ((r.Opts.lookup "map").getD "")
      if mapName == "" then
        [{ Severity := SeverityWarn, Code := "identNoMap", Line := r.Line,
           Message := "Ident used without map=. Add a map and ensure pg_ident entries exist." }]
      else if !IdentMap.Has lib cfg.Ident mapName then
        [{ Severity := SeverityError, Code := "identMapMissing", Line := r.Line,
           Message := "Ident map is missing in pg_ident." }]
      else []
    else [])
  ++ (if r.Method == "peer" && r.Type_ != "local" then
      [{ Severity := SeverityError, Code := "peerNonLocal", Line := r.Line,
         Message := "Peer auth is valid only for local connections." }]
    else [])
  ++ (if r.Type_ == "local" && (r.Method == "trust" || r.Method == "peer")
        && containsToken r.DBs "all" && containsToken r.Users "all" then
      [{ Severity := SeverityWarn, Code := "localAllAll", Line := r.Line,
         Message := "Local all/all with trust or peer is overly broad." }]
    else [])
  ++ (match r.Opts.lookup "clientcert" with
      | some v =>
        if r.Type_ != "hostssl" then
          [{ Severity := SeverityError, Code := "clientcertNonHostssl", Line := r.Line,
             Message := "clientcert is allowed only for hostssl." }]
        else
          let val := lib.ToLower v
          if val != "verify-ca" && val != "verify-full" then
            [{ Severity := SeverityError, Code := "clientcertInvalid", Line := r.Line,
               Message := "clientcert must be verify-ca or verify-full." }]
          else []
      | none => [])

/-- The first lines of `CheckSimpleRules`: a threshold left at `0` takes its default,
16 for IPv4 and 48 for IPv6. -/
def withDefaults (cfg : Config) : Config :=
  { cfg with WideV4 := if cfg.WideV4 = 0 then 16 else cfg.WideV4,
             WideV6 := if cfg.WideV6 = 0 then 48 else cfg.WideV6 }

/-- Function `CheckSimpleRules` of `checks.go`: the loop over the rules with the slice
`issues` as its state. -/
def CheckSimpleRules (lib : StdLib) (rules : List Rule) (cfg : Config) : List Issue :=
  rules.foldl (fun issues r => issues ++ simpleRuleIssues lib (withDefaults cfg) r) []

/-- Function `CheckAll` of `checks.go`. -/
def CheckAll (lib : StdLib) (rules : List Rule) (cfg : Config) : List Issue :=
  CheckSimpleRules lib rules cfg ++ CheckOverlaps rules

/-! ## `cmd/hba-check/main.go` -/

/-- Function `hasError` of `main.go`. -/
def hasError (issues : List Issue) : Bool :=
  issues.any (fun f => f.Severity == SeverityError)

/-- The exit status `main` ends with once the rules are parsed: `os.Exit(1)` when
`hasError`, the normal return `0` otherwise. -/
def exitCode (lib : StdLib) (rules : List Rule) (cfg : Config) : Nat :=
  if hasError (CheckAll lib rules cfg) then 1 else 0

/-! ## Example rules and the findings named by the specification -/

/-- Line 1 `host all all 0.0.0.0/0 reject`. -/
def rejectAll : Rule :=
  { Line := 1, Raw := "host all all 0.0.0.0/0 reject", Type_ := "host", DBs := ["all"],
    Users := ["all"], Addr := addrCIDR4 "0.0.0.0/0" 0 0 0 0 0, Method := "reject", Opts := ∅ }

/-- Line 2 `host all all 0.0.0.0/0 trust`. -/
def trustAll : Rule :=
  { Line := 2, Raw := "host all all 0.0.0.0/0 trust", Type_ := "host", DBs := ["all"],
    Users := ["all"], Addr := addrCIDR4 "0.0.0.0/0" 0 0 0 0 0, Method := "trust", Opts := ∅ }

/-- Line 1 `host all all 10.0.0.0/16 scram-sha-256`. -/
def hostWide : Rule :=
  { Line := 1, Raw := "host all all 10.0.0.0/16 scram-sha-256", Type_ := "host",
    DBs := ["all"], Users := ["all"], Addr := addrCIDR4 "10.0.0.0/16" 10 0 0 0 16,
    Method := "scram-sha-256", Opts := ∅ }

/-- Line 2 `hostssl all all 10.0.0.5/32 scram-sha-256`. -/
def sslNarrow : Rule :=
  { Line := 2, Raw := "hostssl all all 10.0.0.5/32 scram-sha-256", Type_ := "hostssl",
    DBs := ["all"], Users := ["all"], Addr := addrCIDR4 "10.0.0.5/32" 10 0 0 5 32,
    Method := "scram-sha-256", Opts := ∅ }

/-- The line `host mydb app 10.0.0.5/32 scram-sha-256` at line number `line`. -/
def appRule (line : Int) : Rule :=
  { Line := line, Raw := "host mydb app 10.0.0.5/32 scram-sha-256", Type_ := "host",
    DBs := ["mydb"], Users := ["app"], Addr := addrCIDR4 "10.0.0.5/32" 10 0 0 5 32,
    Method := "scram-sha-256", Opts := ∅ }

/-- Line 1 `host all all 10.0.0.0/24 scram-sha-256`. -/
def narrow24 : Rule :=
  { Line := 1, Raw := "host all all 10.0.0.0/24 scram-sha-256", Type_ := "host",
    DBs := ["all"], Users := ["all"], Addr := addrCIDR4 "10.0.0.0/24" 10 0 0 0 24,
    Method := "scram-sha-256", Opts := ∅ }

/-- Line 2 `host all all 10.0.0.0/16 scram-sha-256`. -/
def wide16 : Rule :=
  { Line := 2, Raw := "host all all 10.0.0.0/16 scram-sha-256", Type_ := "host",
    DBs := ["all"], Users := ["all"], Addr := addrCIDR4 "10.0.0.0/16" 10 0 0 0 16,
    Method := "scram-sha-256", Opts := ∅ }

/-- Line 1 `host mydb all all trust`. -/
def mydbRule : Rule :=
  { Line := 1, Raw := "host mydb all all trust", Type_ := "host", DBs := ["mydb"],
    Users := ["all"], Addr := addrAll, Method := "trust", Opts := ∅ }

/-- Line 2 `host , all all trust`: `parseList` drops the empty pieces of the
database field `,`, which leaves no database at all. -/
def noDbRule : Rule :=
  { Line := 2, Raw := "host , all all trust", Type_ := "host", DBs := [],
    Users := ["all"], Addr := addrAll, Method := "trust", Opts := ∅ }

/-- Line 2 `host otherdb all all trust`. -/
def otherdbRule : Rule :=
  { Line := 2, Raw := "host otherdb all all trust", Type_ := "host", DBs := ["otherdb"],
    Users := ["all"], Addr := addrAll, Method := "trust", Opts := ∅ }

/-- Line 3 `local all all peer`; `ParseHBA` gives a non-host rule the address
`Any` with the token `local`. -/
def localPeer : Rule :=
  { Line := 3, Raw := "local all all peer", Type_ := "local", DBs := ["all"],
    Users := ["all"],
    Addr := { Any := true, Special := "", Networks := [], HasIPv4 := false,
              HasIPv6 := false, OrigToken := "local" },
    Method := "peer", Opts := ∅ }

/-- Line 1 `host all all 0.0.0.0/0 trust`. -/
def trustFirst : Rule :=
  { Line := 1, Raw := "host all all 0.0.0.0/0 trust", Type_ := "host", DBs := ["all"],
    Users := ["all"], Addr := addrCIDR4 "0.0.0.0/0" 0 0 0 0 0, Method := "trust", Opts := ∅ }

/-- Line 2 `hostssl all all 0.0.0.0/0 scram-sha-256`. -/
def sslAll : Rule :=
  { Line := 2, Raw := "hostssl all all 0.0.0.0/0 scram-sha-256", Type_ := "hostssl",
    DBs := ["all"], Users := ["all"], Addr := addrCIDR4 "0.0.0.0/0" 0 0 0 0 0,
    Method := "scram-sha-256", Opts := ∅ }

/-- Line 1 `hostssl all all 10.0.0.0/16 cert clientcert=verify-full`. -/
def certStrict : Rule :=
  { Line := 1, Raw := "hostssl all all 10.0.0.0/16 cert clientcert=verify-full",
    Type_ := "hostssl", DBs := ["all"], Users := ["all"],
    Addr := addrCIDR4 "10.0.0.0/16" 10 0 0 0 16, Method := "cert",
    Opts := AList.singleton "clientcert" "verify-full" }

/-- Line 2 `hostssl all all 10.0.0.5/32 cert`. -/
def certPlain : Rule :=
  { Line := 2, Raw := "hostssl all all 10.0.0.5/32 cert", Type_ := "hostssl",
    DBs := ["all"], Users := ["all"], Addr := addrCIDR4 "10.0.0.5/32" 10 0 0 5 32,
    Method := "cert", Opts := ∅ }

/-- Line 2 `host all all 10.0.0.5/32 md5`. -/
def md5Narrow : Rule :=
  { Line := 2, Raw := "host all all 10.0.0.5/32 md5", Type_ := "host",
    DBs := ["all"], Users := ["all"], Addr := addrCIDR4 "10.0.0.5/32" 10 0 0 5 32,
    Method := "md5", Opts := ∅ }

/-- The finding `shadowedByHost` that `overlapIssues` appends first for a bare `host`
rule over a `hostssl` or `hostnossl` rule, and nothing for any other pair of types. -/
def hostShadowIssues (upper lower : Rule) : List Issue :=
  if upper.Type_ == "host" && (lower.Type_ == "hostssl" || lower.Type_ == "hostnossl") then
    [{ Severity := SeverityWarn, Code := "shadowedByHost", Line := lower.Line,
       Message := "host rule at line " ++ toString upper.Line ++ " shadows this rule." }]
  else []

/-- The pair of findings of case (c), a weak method over a strong one. -/
def broadIssues (upper lower : Rule) : List Issue :=
  [{ Severity := SeverityWarn, Code := "overlyBroadRule", Line := upper.Line,
     Message := "Broad rule shadows stricter rule at line " ++ toString lower.Line ++ "." },
   { Severity := SeverityWarn, Code := "shadowedByBroadRule", Line := lower.Line,
     Message := "Rule is shadowed by broader rule at line " ++ toString upper.Line ++ "." }]

/-- The finding of case (d), a duplicate. -/
def redundantIssue (upper lower : Rule) : Issue :=
  { Severity := SeverityInfo, Code := "redundantRule", Line := lower.Line,
    Message := "Rule is redundant due to line " ++ toString upper.Line ++ "." }

/-- The finding of case (e), the generic full shadow. -/
def shadowedIssue (upper lower : Rule) : Issue :=
  { Severity := SeverityWarn, Code := "shadowedRule", Line := lower.Line,
    Message := "Rule is fully shadowed by line " ++ toString upper.Line ++ "." }

/-- The finding of a partial overlap. -/
def partialIssue (ri rj : Rule) : Issue :=
  { Severity := SeverityWarn, Code := "partialOverlap", Line := rj.Line,
    Message := "Rule partially overlaps with line " ++ toString ri.Line ++ "." }

/-- The codes of the full-cover findings. -/
def fullCoverCodes : List String :=
  ["shadowedByReject", "shadowedByHost", "overlyBroadRule", "shadowedByBroadRule",
   "redundantRule", "shadowedRule"]

/-- The weak methods, as the specification lists them. -/
def weakMethods : List String := ["trust", "md5", "password"]

/-- The strong methods, as the specification lists them. -/
def strongMethods : List String :=
  ["scram-sha-256", "cert", "gss", "sspi", "ldap", "pam", "radius", "peer", "ident"]

/-- The emission order in the words of the specification: for `j` ascending and,
within `j`, for `i < j` ascending, the findings of the two-rule list
`[rules[i], rules[j]]`, concatenated. -/
def pairwiseFindings (rules : List Rule) : List Issue :=
  (List.range rules.length).flatMap (fun j =>
    (List.range j).flatMap (fun i =>
      match rules[i]?, rules[j]? with
      | some ri, some rj => CheckOverlaps [ri, rj]
      | _, _ => []))

/-- The three codes of the cleartext-password check. -/
def passwordCodes : List String :=
  ["passwordNoSSL", "passwordWithTLS", "passwordNoTLS"]

/-- The password finding of the rule `r`, as the specification words it: ERROR
`passwordNoSSL` when SSL is off, WARN `passwordWithTLS` when SSL is on and the type is
`hostssl`, ERROR `passwordNoTLS` when SSL is on and the type is anything else. -/
def passwordIssue (cfg : Config) (r : Rule) : Issue :=
  if cfg.SSLOn = false then
    { Severity := SeverityError, Code := "passwordNoSSL", Line := r.Line,
      Message := "SSL is off; method=password always sends credentials in cleartext." }
  else if r.Type_ = "hostssl" then
    { Severity := SeverityWarn, Code := "passwordWithTLS", Line := r.Line,
      Message := "Password method sends cleartext password. Use scram-sha-256 or stronger." }
  else
    { Severity := SeverityError, Code := "passwordNoTLS", Line := r.Line,
      Message := "Unsafe: password method without guaranteed TLS. Use hostssl + scram-sha-256." }

/-- The finding of the check "trust over the network" for the rule `r`. -/
def trustNetworkIssue (r : Rule) : Issue :=
  { Severity := SeverityError, Code := "trustNetwork", Line := r.Line,
    Message := "Unsafe: trust for network connections. Any client can log in as any user without a password." }

/-- The host-family connection types. -/
def hostFamily : List String :=
  ["host", "hostssl", "hostnossl", "hostgssenc", "hostnogssenc"]

/-- A configuration with SSL on, no ident map and the default thresholds. -/
def cfgSSL : Config :=
  { SSLOn := true, Ident := { Maps := ∅ }, WideV4 := 16, WideV6 := 48 }

/-- Line 1 `host all all 10.0.0.0/16 password`. -/
def passwordHost : Rule :=
  { Line := 1, Raw := "host all all 10.0.0.0/16 password", Type_ := "host",
    DBs := ["all"], Users := ["all"], Addr := addrCIDR4 "10.0.0.0/16" 10 0 0 0 16,
    Method := "password", Opts := ∅ }

/-- Line 2 `hostssl all all 10.0.0.5/32 password`. -/
def passwordSSL : Rule :=
  { Line := 2, Raw := "hostssl all all 10.0.0.5/32 password", Type_ := "hostssl",
    DBs := ["all"], Users := ["all"], Addr := addrCIDR4 "10.0.0.5/32" 10 0 0 5 32,
    Method := "password", Opts := ∅ }

/-- The library of the closed examples: `strings.ToLower` as it acts on ASCII
strings, and the value of `net.ParseCIDR` at the literal `10.0.0.5/16` as a table,
the address as written, `10.0.0.5` in 16 bytes, and the network `10.0.0.0` with mask
`255.255.0.0`. The examples feed it ASCII strings and read the table at this
literal only. -/
def exampleLib : StdLib :=
  { ToLower := lowerASCII,
    ParseCIDR := fun s =>
      if s = "10.0.0.5/16" then
        some (ipv4 10 0 0 5, { IP := [10, 0, 0, 0], Mask := [255, 255, 0, 0] })
      else none,
    ParseIP := fun _ => none }

/-- The base of a network: its network number with every host bit cleared, the
address a network "masked to its base" holds. -/
def IPNet.base (n : IPNet) : List Nat :=
  match networkNumberAndMask n with
  | some (nn, m) => List.zipWith (fun v w => v &&& w) nn m
  | none => []

/-- Whether the address stored in a network is the base of the network. -/
def IPNet.isBase (n : IPNet) : Bool :=
  (To4 n.IP).getD n.IP == n.base

/-- The address set `ParseAddr` returns for the keyword `samehost`. -/
def addrSamehost : AddrSet :=
  { Any := false, Special := "samehost", Networks := [host127, loop6],
    HasIPv4 := true, HasIPv6 := true, OrigToken := "samehost" }

/-- The address set `ParseAddr` returns for the IPv4-mapped IPv6 literal
`::ffff:a.b.c.d/ones` spelled `tok`: `net.ParseCIDR` gives the address in 16 bytes and
a 16-byte mask `CIDRMask(ones, 128)`, and `ip.To4()` is non-nil. -/
def addrMapped (tok : String) (a b c d ones : Nat) : AddrSet :=
  { Any := false, Special := "",
    Networks := [{ IP := ipv4 a b c d, Mask := (CIDRMask ones 128).getD [] }],
    HasIPv4 := true, HasIPv6 := false, OrigToken := tok }

/-- Line 1 `host all all 10.0.0.0/20 reject`. -/
def rejectNarrow : Rule :=
  { Line := 1, Raw := "host all all 10.0.0.0/20 reject", Type_ := "host", DBs := ["all"],
    Users := ["all"], Addr := addrCIDR4 "10.0.0.0/20" 10 0 0 0 20, Method := "reject",
    Opts := ∅ }

/-- Line 2 `host all all ::ffff:10.0.0.1/100 trust`. -/
def trustMapped : Rule :=
  { Line := 2, Raw := "host all all ::ffff:10.0.0.1/100 trust", Type_ := "host",
    DBs := ["all"], Users := ["all"],
    Addr := addrMapped "::ffff:10.0.0.1/100" 10 0 0 1 100, Method := "trust", Opts := ∅ }

/-- A network is uniform when it is well formed and its mask has the width of its
address family: 4 bytes on an IPv4 address, 16 bytes otherwise. The networks that
`ParseAddr` stores are uniform, those of IPv4-mapped IPv6 literals apart. -/
def IPNet.Uniform (n : IPNet) : Bool :=
  n.WellFormed && ((To4 n.IP).isSome == (n.Mask.length == 4))

/-- The option map holding the key `x` with the empty string as its value. -/
def optsEmptyX : OptMap := AList.singleton "x" ""

/-- The option map holding the key `y` with the value `z`. -/
def optsYZ : OptMap := AList.singleton "y" "z"

/-- Line 1 `host mydb app 10.0.0.0/8 scram-sha-256`. -/
def net8Rule : Rule :=
  { Line := 1, Raw := "host mydb app 10.0.0.0/8 scram-sha-256", Type_ := "host",
    DBs := ["mydb"], Users := ["app"], Addr := addrCIDR4 "10.0.0.0/8" 10 0 0 0 8,
    Method := "scram-sha-256", Opts := ∅ }

/-- The finding `wideAddress` of the rule `r`. -/
def wideAddressIssue (r : Rule) : Issue :=
  { Severity := SeverityWarn, Code := "wideAddress", Line := r.Line,
    Message := "Address range is too wide: " ++ r.Addr.OrigToken ++ "." }

/-- The network `ParseAddr` stores for the IPv4-mapped literal `::ffff:10.0.0.0/104`:
a 16-byte mask of 104 ones, of which an IPv4 address meets the last 8. -/
def mapped104 : IPNet :=
  { IP := ipv4 10 0 0 0, Mask := (CIDRMask 104 128).getD [] }

/-- Line 1 `host all all ::ffff:10.0.0.0/104 reject`. -/
def rejectMapped : Rule :=
  { Line := 1, Raw := "host all all ::ffff:10.0.0.0/104 reject", Type_ := "host",
    DBs := ["all"], Users := ["all"],
    Addr := addrMapped "::ffff:10.0.0.0/104" 10 0 0 0 104, Method := "reject", Opts := ∅ }

/-- Line 2 `host all all 10.1.0.0/16 trust`. -/
def trustSub : Rule :=
  { Line := 2, Raw := "host all all 10.1.0.0/16 trust", Type_ := "host", DBs := ["all"],
    Users := ["all"], Addr := addrCIDR4 "10.1.0.0/16" 10 1 0 0 16, Method := "trust",
    Opts := ∅ }

/-- Line 1 `host mydb app ::ffff:127.0.0.1/96 scram-sha-256`: an IPv4-mapped IPv6
literal, stored with a 16-byte mask of 96 ones, of which an IPv4 address meets the
last 4 bytes, all zero. -/
def loopMapped : Rule :=
  { Line := 1, Raw := "host mydb app ::ffff:127.0.0.1/96 scram-sha-256", Type_ := "host",
    DBs := ["mydb"], Users := ["app"],
    Addr := addrMapped "::ffff:127.0.0.1/96" 127 0 0 1 96,
    Method := "scram-sha-256", Opts := ∅ }

/-- Line 1 `host mydb app 8.8.8.8/32 scram-sha-256`. -/
def publicHost : Rule :=
  { Line := 1, Raw := "host mydb app 8.8.8.8/32 scram-sha-256", Type_ := "host",
    DBs := ["mydb"], Users := ["app"], Addr := addrCIDR4 "8.8.8.8/32" 8 8 8 8 32,
    Method := "scram-sha-256", Opts := ∅ }

/-! ## Auxiliary facts -/

/-- On a two-rule list `CheckOverlaps` runs the loop body once, on the pair. -/
theorem CheckOverlaps_pair (a b : Rule) : CheckOverlaps [a, b] = pairIssues a b := by
  rfl

/-- A pair of compatible type in which every cover gate holds is handed to
`overlapIssues`. -/
theorem pairIssues_of_cover (ri rj : Rule)
    (hT : compatibleType ri.Type_ rj.Type_ = true)
    (hA : ri.Addr.Covers rj.Addr = true)
    (hD : dbCovers ri.DBs rj.DBs = true)
    (hU : userCovers ri.Users rj.Users = true)
    (hO : optsNotStricter ri.Opts rj.Opts = true) :
    pairIssues ri rj = overlapIssues ri rj := by
  simp [pairIssues, hT, hA, hD, hU, hO]

/-- No method is both weak and strong, so a method is never weaker than itself. -/
theorem isWeaker_self (m : String) : isWeaker m m = false := by
  by_cases h : weak m = true
  · have hs : strong m = false := by
      simp only [weak, Bool.or_eq_true, beq_iff_eq] at h
      rcases h with (h | h) | h <;> subst h <;> decide
    simp [isWeaker, hs]
  · simp [isWeaker, h]

/-- Maps with the same reads: `a` is not stricter than `b`. -/
theorem optsNotStricter_of_lookup_eq (a b : OptMap)
    (h : ∀ k, a.lookup k = b.lookup k) : optsNotStricter a b = true := by
  unfold optsNotStricter
  rw [List.all_eq_true]
  intro e he
  have hmem : e.2 ∈ a.lookup e.1 := AList.mem_lookup_iff.2 he
  rw [h, Option.mem_def] at hmem
  simp [hmem]

/-- Maps with the same reads have the same number of entries. -/
theorem entries_length_of_lookup_eq (a b : OptMap)
    (h : ∀ k, a.lookup k = b.lookup k) : a.entries.length = b.entries.length := by
  apply List.Perm.length_eq
  apply List.lookup_ext a.nodupKeys b.nodupKeys
  intro x y
  have := h x
  simp only [AList.lookup] at this
  rw [this]

/-- Maps with the same reads pass `optsEqual`. -/
theorem optsEqual_of_lookup_eq (a b : OptMap)
    (h : ∀ k, a.lookup k = b.lookup k) : optsEqual a b = true := by
  unfold optsEqual
  rw [if_neg (by simp [entries_length_of_lookup_eq a b h]), List.all_eq_true]
  intro e he
  have hmem : e.2 ∈ a.lookup e.1 := AList.mem_lookup_iff.2 he
  rw [h, Option.mem_def] at hmem
  simp [hmem]

/-! ## C1: reject priority -/

/-- C1. Reject priority: when the earlier rule fully covers the later one
(compatible types, address, database and user cover, options not stricter), the
earlier method is `reject` and the later one is not, `CheckOverlaps` on the pair
returns exactly one finding, the ERROR `shadowedByReject` at the later line. -/
theorem reject_priority (earlier later : Rule)
    (hT : compatibleType earlier.Type_ later.Type_ = true)
    (hA : earlier.Addr.Covers later.Addr = true)
    (hD : dbCovers earlier.DBs later.DBs = true)
    (hU : userCovers earlier.Users later.Users = true)
    (hO : optsNotStricter earlier.Opts later.Opts = true)
    (hE : earlier.Method = "reject") (hL : later.Method ≠ "reject") :
    CheckOverlaps [earlier, later] =
      [{ Severity := SeverityError, Code := "shadowedByReject", Line := later.Line,
         Message := "Rule is shadowed by reject at line " ++ toString earlier.Line ++ "." }] := by
  rw [CheckOverlaps_pair, pairIssues_of_cover earlier later hT hA hD hU hO]
  simp [overlapIssues, hE, hL]

/-- C1 at `host all all 0.0.0.0/0 reject` followed by `host all all 0.0.0.0/0 trust`. -/
theorem reject_priority_witness :
    CheckOverlaps [rejectAll, trustAll] =
      [{ Severity := "ERROR", Code := "shadowedByReject", Line := 2,
         Message := "Rule is shadowed by reject at line 1." }] :=
  reject_priority rejectAll trustAll (by decide) (by decide) (by decide) (by decide)
    (by decide) (by decide) (by decide)

/-! ## C2: a bare `host` rule over a `hostssl` rule -/

/-- C2, as stated, fails: on `host all all 10.0.0.0/16 scram-sha-256` followed by
`hostssl all all 10.0.0.5/32 scram-sha-256` the result is not a single finding, and
a `redundantRule` finding is reported next to `shadowedByHost`. -/
theorem host_over_ssl_not_single :
    (CheckOverlaps [hostWide, sslNarrow]).length ≠ 1
      ∧ "redundantRule" ∈ (CheckOverlaps [hostWide, sslNarrow]).map (fun f => f.Code) := by
  decide

/-- C2, amended. A bare `host` rule that fully covers a later `hostssl` or
`hostnossl` rule with the same method and the same options yields exactly two
findings on the pair: the WARN `shadowedByHost` and then the INFO `redundantRule`,
both at the later line. -/
theorem host_over_ssl_shadow (earlier later : Rule)
    (hE : earlier.Type_ = "host")
    (hL : later.Type_ = "hostssl" ∨ later.Type_ = "hostnossl")
    (hA : earlier.Addr.Covers later.Addr = true)
    (hD : dbCovers earlier.DBs later.DBs = true)
    (hU : userCovers earlier.Users later.Users = true)
    (hM : earlier.Method = later.Method)
    (hO : ∀ k, earlier.Opts.lookup k = later.Opts.lookup k) :
    CheckOverlaps [earlier, later] =
      [{ Severity := SeverityWarn, Code := "shadowedByHost", Line := later.Line,
         Message := "host rule at line " ++ toString earlier.Line ++ " shadows this rule." },
       { Severity := SeverityInfo, Code := "redundantRule", Line := later.Line,
         Message := "Rule is redundant due to line " ++ toString earlier.Line ++ "." }] := by
  have hT : compatibleType earlier.Type_ later.Type_ = true := by
    rcases hL with h | h <;> rw [hE, h] <;> decide
  rw [CheckOverlaps_pair, pairIssues_of_cover earlier later hT hA hD hU
    (optsNotStricter_of_lookup_eq _ _ hO)]
  have hW : isWeaker later.Method later.Method = false := isWeaker_self _
  have hQ : optsEqual earlier.Opts later.Opts = true := optsEqual_of_lookup_eq _ _ hO
  rcases hL with h | h <;> simp [overlapIssues, hE, h, hM, hW, hQ]

/-- C2, amended, at `host all all 10.0.0.0/16 scram-sha-256` followed by
`hostssl all all 10.0.0.5/32 scram-sha-256`. -/
theorem host_over_ssl_shadow_witness :
    CheckOverlaps [hostWide, sslNarrow] =
      [{ Severity := "WARN", Code := "shadowedByHost", Line := 2,
         Message := "host rule at line 1 shadows this rule." },
       { Severity := "INFO", Code := "redundantRule", Line := 2,
         Message := "Rule is redundant due to line 1." }] :=
  host_over_ssl_shadow hostWide sslNarrow (by decide) (by decide) (by decide) (by decide)
    (by decide) (by decide) (fun _ => rfl)

/-! ## Auxiliary facts on networks -/

set_option maxRecDepth 100000 in
/-- The bit-counting loop of `net.simpleMaskLength` ends by its own test within the
eight rounds given to it: on every byte the value left over has its top bit clear. -/
theorem leadingOnes_done : ∀ v, v < 256 → (leadingOnes 8 v).2 &&& 0x80 = 0 := by
  decide

/-- The mask loop of `net.CIDRMask` yields as many bytes as asked for. -/
theorem cidrMaskBytes_length (l n : Nat) : (cidrMaskBytes l n).length = l := by
  induction l generalizing n with
  | zero => rfl
  | succ l ih =>
    unfold cidrMaskBytes
    split <;> simp [ih]

/-- A mask built by `net.CIDRMask` has `bits / 8` bytes. -/
theorem CIDRMask_length {ones bits : Nat} {m : List Nat}
    (h : CIDRMask ones bits = some m) : m.length = bits / 8 := by
  unfold CIDRMask at h
  split at h
  · cases h
  · split at h
    · cases h
    · cases h
      exact cidrMaskBytes_length _ _

/-- The result of `To4`, when there is one, has four bytes. -/
theorem To4_length {ip x : List Nat} (h : To4 ip = some x) : x.length = 4 := by
  unfold To4 at h
  split at h
  · cases h
    assumption
  · split at h
    · rename_i h16
      cases h
      simp [h16.1]
    · cases h

/-- The mask of a well-formed network has 4 bytes, on an IPv4 address, or 16. -/
theorem WellFormed_mask_length {n : IPNet} (h : n.WellFormed = true) :
    ((To4 n.IP).isSome = true ∧ n.Mask.length = 4) ∨ n.Mask.length = 16 := by
  simp only [IPNet.WellFormed, Bool.and_eq_true, Bool.or_eq_true, List.any_eq_true,
    beq_iff_eq] at h
  rcases h.2 with ⟨h4, k, _, hk⟩ | ⟨k, _, hk⟩
  · exact Or.inl ⟨h4, CIDRMask_length hk⟩
  · exact Or.inr (CIDRMask_length hk)

/-- The address of a well-formed network has 4 or 16 bytes. -/
theorem WellFormed_ip_length {n : IPNet} (h : n.WellFormed = true) :
    n.IP.length = 4 ∨ n.IP.length = 16 := by
  simp only [IPNet.WellFormed, Bool.and_eq_true, Bool.or_eq_true, beq_iff_eq] at h
  exact h.1.1

/-- On a well-formed network `networkNumberAndMask` succeeds, and the network
number is the address in its shortest form. -/
theorem networkNumberAndMask_of_WellFormed {n : IPNet} (h : n.WellFormed = true) :
    ∃ m, networkNumberAndMask n = some ((To4 n.IP).getD n.IP, m) := by
  have hm := WellFormed_mask_length h
  have hl := WellFormed_ip_length h
  unfold networkNumberAndMask
  cases h4 : To4 n.IP with
  | some x =>
    have hx : x.length = 4 := To4_length h4
    rcases hm with ⟨_, hm⟩ | hm
    · exact ⟨n.Mask, by simp [hm, hx]⟩
    · exact ⟨n.Mask.drop 12, by simp [hm, hx]⟩
  | none =>
    rw [h4] at hm
    have hm16 : n.Mask.length = 16 := by
      rcases hm with ⟨hs, _⟩ | hm
      · cases hs
      · exact hm
    have hl16 : n.IP.length = 16 := by
      rcases hl with hl | hl
      · simp [To4, hl] at h4
      · exact hl
    exact ⟨n.Mask, by simp [hm16, hl16]⟩

/-- A well-formed network contains its own address. -/
theorem Contains_self {n : IPNet} (h : n.WellFormed = true) : n.Contains n.IP = true := by
  obtain ⟨m, hm⟩ := networkNumberAndMask_of_WellFormed h
  simp [IPNet.Contains, hm]

/-- A well-formed network is `cidrContains`-contained in itself, in its own family. -/
theorem cidrContains_self {n : IPNet} (h : n.WellFormed = true) :
    (sameFamily n n && cidrContains n n) = true := by
  simp [sameFamily, cidrContains, Contains_self h]

/-- A well-formed address set that is `Any` or has a network covers itself. -/
theorem Covers_self (a : AddrSet) (hN : a.Any = true ∨ a.Networks ≠ [])
    (hW : a.WellFormed = true) : a.Covers a = true := by
  unfold AddrSet.Covers
  by_cases hAny : a.Any = true
  · simp [hAny]
  · have hne : a.Networks ≠ [] := hN.resolve_left hAny
    simp only [hAny, Bool.false_eq_true, if_false, List.length_eq_zero, hne]
    rw [List.all_eq_true]
    intro bn hbn
    rw [List.any_eq_true]
    refine ⟨bn, hbn, cidrContains_self ?_⟩
    exact (List.all_eq_true.1 hW) bn hbn

/-- Function `containsToken` decides list membership. -/
theorem containsToken_iff (l : List String) (t : String) :
    containsToken l t = true ↔ t ∈ l := by
  unfold containsToken
  rw [List.any_eq_true]
  constructor
  · rintro ⟨v, hv, h⟩
    rw [beq_iff_eq] at h
    exact h ▸ hv
  · intro h
    exact ⟨t, h, by simp⟩

/-- C4. Partial overlap: when the types are compatible, the address, database and
user dimensions all intersect, and the full-cover conjunction (address, database
and user cover, options not stricter) fails, `CheckOverlaps` on the pair is exactly
one finding: the WARN `partialOverlap` at the later line, whose message names the
earlier line. -/
theorem partial_overlap (earlier later : Rule)
    (hT : compatibleType earlier.Type_ later.Type_ = true)
    (hA : earlier.Addr.Intersects later.Addr = true)
    (hD : dbIntersects earlier.DBs later.DBs = true)
    (hU : userIntersects earlier.Users later.Users = true)
    (hN : ¬ (earlier.Addr.Covers later.Addr = true ∧ dbCovers earlier.DBs later.DBs = true
      ∧ userCovers earlier.Users later.Users = true
      ∧ optsNotStricter earlier.Opts later.Opts = true)) :
    CheckOverlaps [earlier, later] =
      [{ Severity := SeverityWarn, Code := "partialOverlap", Line := later.Line,
         Message := "Rule partially overlaps with line " ++ toString earlier.Line ++ "." }] := by
  rw [CheckOverlaps_pair]
  have hC : (earlier.Addr.Covers later.Addr && dbCovers earlier.DBs later.DBs
      && userCovers earlier.Users later.Users
      && optsNotStricter earlier.Opts later.Opts) = false := by
    rw [Bool.eq_false_iff]
    intro h
    simp only [Bool.and_eq_true] at h
    exact hN ⟨h.1.1.1, h.1.1.2, h.1.2, h.2⟩
  unfold pairIssues
  simp only [hC, hT, hA, hD, hU]
  simp

/-- C4 at `host all all 10.0.0.0/24 scram-sha-256` followed by
`host all all 10.0.0.0/16 scram-sha-256`. -/
theorem partial_overlap_witness :
    CheckOverlaps [narrow24, wide16] =
      [{ Severity := "WARN", Code := "partialOverlap", Line := 2,
         Message := "Rule partially overlaps with line 1." }] :=
  partial_overlap narrow24 wide16 (by decide) (by decide) (by decide) (by decide)
    (by decide)

/-! ## C5: unrelated databases -/

/-- C5, as stated, fails: the database lists of `host mydb all all trust` and
`host , all all trust` hold no `all` and share no entry, yet the pair is reported. -/
theorem unrelated_db_reported :
    "all" ∉ mydbRule.DBs ∧ "all" ∉ noDbRule.DBs
      ∧ (∀ d ∈ mydbRule.DBs, d ∉ noDbRule.DBs)
      ∧ CheckOverlaps [mydbRule, noDbRule] =
        [{ Severity := "INFO", Code := "redundantRule", Line := 2,
           Message := "Rule is redundant due to line 1." }] := by
  decide

/-- C5, amended. Two rules whose database lists hold no `all` and share no entry,
the later list being non-empty, yield no finding, whatever their types, addresses,
users, methods and options are. -/
theorem unrelated_db_no_findings (r1 r2 : Rule)
    (h1 : "all" ∉ r1.DBs) (h2 : "all" ∉ r2.DBs)
    (hS : ∀ d ∈ r1.DBs, d ∉ r2.DBs) (hne : r2.DBs ≠ []) :
    CheckOverlaps [r1, r2] = [] := by
  rw [CheckOverlaps_pair]
  have c1 : containsToken r1.DBs "all" = false := by
    rw [Bool.eq_false_iff, Ne, containsToken_iff]; exact h1
  have c2 : containsToken r2.DBs "all" = false := by
    rw [Bool.eq_false_iff, Ne, containsToken_iff]; exact h2
  have hC : dbCovers r1.DBs r2.DBs = false := by
    obtain ⟨d, hd⟩ := List.exists_mem_of_ne_nil _ hne
    have hd1 : d ∉ r1.DBs := fun h => hS d h hd
    simp only [dbCovers, c1, c2, Bool.false_eq_true, if_false]
    rw [Bool.eq_false_iff, Ne, List.all_eq_true]
    intro h
    exact hd1 ((containsToken_iff _ _).1 (h d hd))
  have hI : dbIntersects r1.DBs r2.DBs = false := by
    simp only [dbIntersects, c1, c2, Bool.or_self, Bool.false_eq_true, if_false]
    rw [Bool.eq_false_iff, Ne, List.any_eq_true]
    rintro ⟨d, hd, hc⟩
    exact hS d hd ((containsToken_iff _ _).1 hc)
  unfold pairIssues
  simp [hC, hI]

/-- C5, amended, at `host mydb all all trust` followed by `host otherdb all all trust`. -/
theorem unrelated_db_no_findings_witness :
    CheckOverlaps [mydbRule, otherdbRule] = [] :=
  unrelated_db_no_findings mydbRule otherdbRule (by decide) (by decide) (by decide)
    (by decide)

/-! ## C6: covers implies intersects -/

/-- A network that `cidrContains` another one overlaps it. -/
theorem cidrOverlaps_of_cidrContains {a b : IPNet} (h : cidrContains a b = true) :
    cidrOverlaps a b = true := by
  unfold cidrContains at h
  unfold cidrOverlaps
  cases hc : a.Contains b.IP with
  | true => rfl
  | false => simp [hc] at h

/-- C6. Covers implies intersects: for all address sets `A` and `B` (in particular
those whose networks are well-formed CIDR blocks), if `A.Covers B` is true then
`A.Intersects B` is true. -/
theorem covers_implies_intersects (A B : AddrSet) (h : A.Covers B = true) :
    A.Intersects B = true := by
  unfold AddrSet.Covers at h
  unfold AddrSet.Intersects
  by_cases hA : A.Any = true
  · simp [hA]
  · by_cases hB : B.Any = true
    · simp [hB]
    · rw [if_neg hA, if_neg hB] at h
      by_cases hE : B.Networks.length = 0
      · rw [if_pos hE] at h
        cases h
      · rw [if_neg hE, List.all_eq_true] at h
        have hne : B.Networks ≠ [] := fun hnil => hE (by rw [hnil]; rfl)
        obtain ⟨bn, hbn⟩ := List.exists_mem_of_ne_nil _ hne
        obtain ⟨an, han, hab⟩ := List.any_eq_true.1 (h bn hbn)
        rw [Bool.and_eq_true] at hab
        have hAB : (A.Any || B.Any) = false := by simp [hA, hB]
        rw [hAB]
        simp only [Bool.false_eq_true, if_false]
        rw [List.any_eq_true]
        refine ⟨an, han, ?_⟩
        rw [List.any_eq_true]
        refine ⟨bn, hbn, ?_⟩
        rw [Bool.and_eq_true]
        exact ⟨hab.1, cidrOverlaps_of_cidrContains hab.2⟩

/-- C6 at the address sets of `10.0.0.0/16` and `10.0.0.5/32`. -/
theorem covers_implies_intersects_witness :
    (addrCIDR4 "10.0.0.0/16" 10 0 0 0 16).Intersects (addrCIDR4 "10.0.0.5/32" 10 0 0 5 32)
      = true :=
  covers_implies_intersects (addrCIDR4 "10.0.0.0/16" 10 0 0 0 16)
    (addrCIDR4 "10.0.0.5/32" 10 0 0 5 32) (by decide)

/-! ## C7: self-coverage -/

/-- C7, as stated, fails: the address set without `Any` and without networks (the
zero value `AddrSet{}`) does not cover itself. -/
theorem self_coverage_fails_on_empty :
    addrZero.Any = false ∧ addrZero.Covers addrZero = false := by
  decide

/-- C7, amended. Self-coverage: every address set with `Any = false` that holds at
least one network, its networks being well-formed CIDR blocks, covers itself. -/
theorem self_coverage (A : AddrSet) (_hAny : A.Any = false) (hne : A.Networks ≠ [])
    (hW : A.WellFormed = true) : A.Covers A = true :=
  Covers_self A (Or.inr hne) hW

/-- C7, amended, at the address set of `10.0.0.0/16`. -/
theorem self_coverage_witness :
    (addrCIDR4 "10.0.0.0/16" 10 0 0 0 16).Covers (addrCIDR4 "10.0.0.0/16" 10 0 0 0 16)
      = true :=
  self_coverage (addrCIDR4 "10.0.0.0/16" 10 0 0 0 16) (by decide) (by decide) (by decide)

/-! ## C8: wildcard dominance -/

/-- C8. Wildcard dominance: an address set with `Any = true` covers every address
set `B`; an address set with `Any = false` covers no address set with `Any = true`. -/
theorem wildcard_dominance (A B : AddrSet) :
    (A.Any = true → A.Covers B = true)
      ∧ (A.Any = false → B.Any = true → A.Covers B = false) := by
  constructor
  · intro hA
    simp [AddrSet.Covers, hA]
  · intro hA hB
    simp [AddrSet.Covers, hA, hB]

/-- C8 at the address sets of `all` and `10.0.0.0/16`, in both directions. -/
theorem wildcard_dominance_witness :
    addrAll.Covers (addrCIDR4 "10.0.0.0/16" 10 0 0 0 16) = true
      ∧ (addrCIDR4 "10.0.0.0/16" 10 0 0 0 16).Covers addrAll = false :=
  ⟨(wildcard_dominance addrAll (addrCIDR4 "10.0.0.0/16" 10 0 0 0 16)).1 (by decide),
   (wildcard_dominance (addrCIDR4 "10.0.0.0/16" 10 0 0 0 16) addrAll).2 (by decide)
     (by decide)⟩

/-! ## C9: wide threshold -/

/-- The size of a 4-byte mask built by `net.CIDRMask` is its number of ones. -/
theorem maskOnes_cidrMaskBytes4 : ∀ P, P ≤ 32 → maskOnes (cidrMaskBytes 4 P) = P := by
  decide

/-- The size of a 16-byte mask built by `net.CIDRMask` is its number of ones. -/
theorem maskOnes_cidrMaskBytes16 : ∀ P, P ≤ 128 → maskOnes (cidrMaskBytes 16 P) = P := by
  decide

/-- Method `IPMask.Size` gives back the prefix length `net.CIDRMask` was built from. -/
theorem maskOnes_CIDRMask {P bits : Nat} {m : List Nat} (h : CIDRMask P bits = some m) :
    maskOnes m = P := by
  unfold CIDRMask at h
  split at h
  · cases h
  · rename_i hb
    split at h
    · cases h
    · rename_i hP
      cases h
      have hb2 : bits = 32 ∨ bits = 128 := by omega
      rcases hb2 with rfl | rfl
      · exact maskOnes_cidrMaskBytes4 P (by omega)
      · exact maskOnes_cidrMaskBytes16 P (by omega)

/-- Function `compatibleType` in closed form, for arbitrary type strings. -/
theorem compatibleType_iff (a b : String) :
    compatibleType a b = true ↔
      (a = b
        ∨ (a = "host" ∧ b ∈ ["host", "hostssl", "hostnossl", "hostgssenc", "hostnogssenc"])
        ∨ (b = "host" ∧ a ∈ ["host", "hostssl", "hostnossl", "hostgssenc", "hostnogssenc"])) := by
  simp only [compatibleType, Bool.and_eq_true, Bool.or_eq_true, beq_iff_eq,
    List.mem_cons, List.mem_singleton, List.not_mem_nil, or_false]
  by_cases hab : a = b
  · simp [hab]
  · simp only [hab, if_false, false_or]
    by_cases h1 : a = "host" ∧ ((((b = "host" ∨ b = "hostssl") ∨ b = "hostnossl")
        ∨ b = "hostgssenc") ∨ b = "hostnogssenc")
    · rw [if_pos h1]
      simp only [true_iff]
      left
      refine ⟨h1.1, ?_⟩
      tauto
    · rw [if_neg h1]
      by_cases h2 : b = "host" ∧ ((((a = "host" ∨ a = "hostssl") ∨ a = "hostnossl")
          ∨ a = "hostgssenc") ∨ a = "hostnogssenc")
      · rw [if_pos h2]
        simp only [true_iff]
        right
        refine ⟨h2.1, ?_⟩
        tauto
      · rw [if_neg h2]
        simp only [Bool.false_eq_true, false_iff]
        tauto

/-- C10. Type compatibility gate: `compatibleType a b` is true iff `a = b`, or one of
the two is `host` and the other a host-family kind (`host`, `hostssl`, `hostnossl`,
`hostgssenc`, `hostnogssenc`); `local` is compatible with `local` only, on either
side; two distinct kinds among `hostssl`, `hostnossl`, `hostgssenc`, `hostnogssenc`
are not compatible; and a pair of rules of incompatible types contributes no
finding. The first two parts hold for arbitrary type strings, the six connection
kinds among them. -/
theorem compatible_type_gate :
    (∀ a b : String, compatibleType a b = true ↔
        (a = b
          ∨ (a = "host" ∧ b ∈ ["host", "hostssl", "hostnossl", "hostgssenc", "hostnogssenc"])
          ∨ (b = "host" ∧ a ∈ ["host", "hostssl", "hostnossl", "hostgssenc", "hostnogssenc"])))
      ∧ (∀ b : String, (compatibleType "local" b = true ↔ b = "local")
          ∧ (compatibleType b "local" = true ↔ b = "local"))
      ∧ (∀ a b : String, a ∈ ["hostssl", "hostnossl", "hostgssenc", "hostnogssenc"] →
          b ∈ ["hostssl", "hostnossl", "hostgssenc", "hostnogssenc"] → a ≠ b →
          compatibleType a b = false)
      ∧ (∀ r1 r2 : Rule, compatibleType r1.Type_ r2.Type_ = false →
          pairIssues r1 r2 = [] ∧ CheckOverlaps [r1, r2] = []) := by
  refine ⟨compatibleType_iff, ?_, ?_, ?_⟩
  · intro b
    constructor
    · rw [compatibleType_iff]
      constructor
      · rintro (h | ⟨h, _⟩ | ⟨_, h⟩)
        · exact h.symm
        · exact absurd h (by decide)
        · exact absurd h (by decide)
      · intro h
        exact Or.inl h.symm
    · rw [compatibleType_iff]
      constructor
      · rintro (h | ⟨_, h⟩ | ⟨h, _⟩)
        · exact h
        · exact absurd h (by decide)
        · exact absurd h (by decide)
      · intro h
        exact Or.inl h
  · intro a b ha hb hab
    simp only [List.mem_cons, List.mem_singleton, List.not_mem_nil, or_false] at ha hb
    rcases ha with rfl | rfl | rfl | rfl <;> rcases hb with rfl | rfl | rfl | rfl <;>
      first
        | exact absurd rfl hab
        | decide
  · intro r1 r2 h
    have hp : pairIssues r1 r2 = [] := by simp [pairIssues, h]
    exact ⟨hp, by rw [CheckOverlaps_pair, hp]⟩

/-- C10 at concrete kinds, and at `hostssl all all 10.0.0.5/32 scram-sha-256`
followed by `local all all peer`. -/
theorem compatible_type_gate_witness :
    (compatibleType "host" "hostgssenc" = true)
      ∧ (compatibleType "local" "host" = true ↔ "host" = "local")
      ∧ compatibleType "hostssl" "hostnossl" = false
      ∧ CheckOverlaps [sslNarrow, localPeer] = [] :=
  ⟨(compatible_type_gate.1 "host" "hostgssenc").2 (by decide),
   (compatible_type_gate.2.1 "host").1,
   compatible_type_gate.2.2.1 "hostssl" "hostnossl" (by decide) (by decide) (by decide),
   (compatible_type_gate.2.2.2 sslNarrow localPeer (by decide)).2⟩

/-! ## Auxiliary facts on the full-cover classification -/

/-- Table `weak` of `isWeaker` holds exactly the listed weak methods. -/
theorem weak_iff (m : String) : weak m = true ↔ m ∈ weakMethods := by
  simp only [weak, weakMethods, Bool.or_eq_true, beq_iff_eq, List.mem_cons,
    List.mem_singleton, List.not_mem_nil, or_false, or_assoc]

/-- Table `strong` of `isWeaker` holds exactly the listed strong methods. -/
theorem strong_iff (m : String) : strong m = true ↔ m ∈ strongMethods := by
  simp only [strong, strongMethods, Bool.or_eq_true, beq_iff_eq, List.mem_cons,
    List.mem_singleton, List.not_mem_nil, or_false, or_assoc]

/-- Function `isWeaker` is the conjunction weak above, strong below. -/
theorem isWeaker_iff (u l : String) :
    isWeaker u l = true ↔ (u ∈ weakMethods ∧ l ∈ strongMethods) := by
  rw [← weak_iff, ← strong_iff]
  unfold isWeaker
  cases weak u <;> cases strong l <;> simp

/-- The weak methods do not include `reject`. -/
theorem weak_ne_reject {m : String} (h : m ∈ weakMethods) : m ≠ "reject" := by
  intro hm
  subst hm
  revert h
  decide

/-- Function `overlapIssues` outside the reject case: the optional `shadowedByHost`
followed by the group chosen by the method comparison. -/
theorem overlapIssues_not_reject (upper lower : Rule)
    (h : ¬ (upper.Method = "reject" ∧ lower.Method ≠ "reject")) :
    overlapIssues upper lower = hostShadowIssues upper lower ++
      (if isWeaker upper.Method lower.Method then broadIssues upper lower
       else if upper.Method == lower.Method && optsEqual upper.Opts lower.Opts then
         [redundantIssue upper lower]
       else [shadowedIssue upper lower]) := by
  have hr : (upper.Method == "reject" && lower.Method != "reject") = false := by
    rw [Bool.eq_false_iff]
    intro hc
    simp only [Bool.and_eq_true, beq_iff_eq, bne_iff_ne] at hc
    exact h hc
  unfold overlapIssues
  rw [hr]
  simp only [Bool.false_eq_true, if_false, hostShadowIssues, broadIssues, redundantIssue,
    shadowedIssue]
  split <;> split <;> rfl

/-- With `a` not stricter than `b`, function `optsEqual` decides whether the two maps
have the same reads: the length test then rules out extra keys in `b`. -/
theorem optsEqual_iff_of_notStricter (a b : OptMap) (hS : optsNotStricter a b = true) :
    optsEqual a b = true ↔ ∀ k, a.lookup k = b.lookup k := by
  constructor
  · intro hE
    have hlen : a.entries.length = b.entries.length := by
      unfold optsEqual at hE
      by_contra hne
      rw [if_pos hne] at hE
      cases hE
    have hsub : a.entries ⊆ b.entries := by
      intro e he
      unfold optsNotStricter at hS
      rw [List.all_eq_true] at hS
      have := hS e he
      cases hb : b.lookup e.1 with
      | none => rw [hb] at this; cases this
      | some bv =>
        rw [hb] at this
        simp only [beq_iff_eq] at this
        have hm : bv ∈ b.lookup e.1 := hb
        rw [AList.mem_lookup_iff, this] at hm
        exact hm
    have hperm : a.entries.Perm b.entries :=
      (List.subperm_of_subset a.nodupKeys.nodup hsub).perm_of_length_le (le_of_eq hlen.symm)
    intro k
    exact AList.perm_lookup hperm
  · exact optsEqual_of_lookup_eq a b

/-- A key of `a` that `b` lacks or maps elsewhere makes `a` stricter than `b`. -/
theorem optsNotStricter_false (a b : OptMap) (k v : String)
    (hk : a.lookup k = some v) (hl : b.lookup k ≠ some v) : optsNotStricter a b = false := by
  rw [Bool.eq_false_iff]
  intro h
  unfold optsNotStricter at h
  rw [List.all_eq_true] at h
  have hm : (⟨k, v⟩ : Sigma fun _ : String => String) ∈ a.entries :=
    AList.mem_lookup_iff.1 hk
  have := h ⟨k, v⟩ hm
  cases hb : b.lookup k with
  | none => simp [hb] at this
  | some bv =>
    simp only [hb, beq_iff_eq] at this
    exact hl (by rw [hb, this])

/-! ## C11: stricter options block the full cover -/

/-- C11. Stricter options block full cover: when the earlier options hold a key `k`
with value `v` that the later options lack or map to another value, `CheckOverlaps`
on the pair is either empty or the single `partialOverlap` finding, and none of its
findings carries a full-cover code. -/
theorem stricter_options_block_cover (earlier later : Rule) (k v : String)
    (hk : earlier.Opts.lookup k = some v) (hl : later.Opts.lookup k ≠ some v) :
    (CheckOverlaps [earlier, later] = []
        ∨ CheckOverlaps [earlier, later] = [partialIssue earlier later])
      ∧ ∀ f ∈ CheckOverlaps [earlier, later], f.Code ∉ fullCoverCodes := by
  have hS : optsNotStricter earlier.Opts later.Opts = false :=
    optsNotStricter_false _ _ k v hk hl
  have hcases : pairIssues earlier later = []
      ∨ pairIssues earlier later = [partialIssue earlier later] := by
    unfold pairIssues
    simp only [hS, Bool.and_false, Bool.false_eq_true, if_false, partialIssue]
    split
    · exact Or.inl rfl
    · split
      · exact Or.inl rfl
      · split
        · exact Or.inl rfl
        · split
          · exact Or.inl rfl
          · split
            · exact Or.inr rfl
            · exact Or.inl rfl
  rw [CheckOverlaps_pair]
  refine ⟨hcases, ?_⟩
  intro f hf
  rcases hcases with h | h
  · rw [h] at hf
    cases hf
  · rw [h, List.mem_singleton] at hf
    subst hf
    simp only [partialIssue]
    decide

/-- C11 at `hostssl all all 10.0.0.0/16 cert clientcert=verify-full` followed by
`hostssl all all 10.0.0.5/32 cert`: the only finding is the partial overlap. -/
theorem stricter_options_block_cover_witness :
    (CheckOverlaps [certStrict, certPlain] = []
        ∨ CheckOverlaps [certStrict, certPlain] = [partialIssue certStrict certPlain])
      ∧ ∀ f ∈ CheckOverlaps [certStrict, certPlain], f.Code ∉ fullCoverCodes :=
  stricter_options_block_cover certStrict certPlain "clientcert" "verify-full"
    (by decide) (by decide)

/-! ## C12: a weak method masks a strong one -/

/-- C12. Weak masks strong: for a fully covered pair whose earlier method is weak and
whose later method is strong, the findings are the optional `shadowedByHost` followed
by WARN `overlyBroadRule` at the earlier line and WARN `shadowedByBroadRule` at the
later line, and no finding is `redundantRule`, `shadowedRule` or `shadowedByReject`. -/
theorem weak_masks_strong (earlier later : Rule)
    (hT : compatibleType earlier.Type_ later.Type_ = true)
    (hA : earlier.Addr.Covers later.Addr = true)
    (hD : dbCovers earlier.DBs later.DBs = true)
    (hU : userCovers earlier.Users later.Users = true)
    (hO : optsNotStricter earlier.Opts later.Opts = true)
    (hW : earlier.Method ∈ weakMethods) (hS : later.Method ∈ strongMethods) :
    CheckOverlaps [earlier, later] = hostShadowIssues earlier later ++
        [{ Severity := SeverityWarn, Code := "overlyBroadRule", Line := earlier.Line,
           Message := "Broad rule shadows stricter rule at line " ++ toString later.Line
             ++ "." },
         { Severity := SeverityWarn, Code := "shadowedByBroadRule", Line := later.Line,
           Message := "Rule is shadowed by broader rule at line " ++ toString earlier.Line
             ++ "." }]
      ∧ ∀ f ∈ CheckOverlaps [earlier, later],
          f.Code ∉ ["redundantRule", "shadowedRule", "shadowedByReject"] := by
  have hw : isWeaker earlier.Method later.Method = true := (isWeaker_iff _ _).2 ⟨hW, hS⟩
  have hEq : CheckOverlaps [earlier, later] =
      hostShadowIssues earlier later ++ broadIssues earlier later := by
    rw [CheckOverlaps_pair, pairIssues_of_cover earlier later hT hA hD hU hO,
      overlapIssues_not_reject earlier later (fun h => weak_ne_reject hW h.1), hw]
    rfl
  refine ⟨hEq, ?_⟩
  intro f hf
  rw [hEq, List.mem_append] at hf
  rcases hf with hf | hf
  · unfold hostShadowIssues at hf
    split at hf
    · rw [List.mem_singleton] at hf
      subst hf
      change "shadowedByHost" ∉ ["redundantRule", "shadowedRule", "shadowedByReject"]
      decide
    · cases hf
  · simp only [broadIssues, List.mem_cons, List.mem_singleton, List.not_mem_nil,
      or_false] at hf
    rcases hf with hf | hf
    · subst hf
      change "overlyBroadRule" ∉ ["redundantRule", "shadowedRule", "shadowedByReject"]
      decide
    · subst hf
      change "shadowedByBroadRule" ∉ ["redundantRule", "shadowedRule", "shadowedByReject"]
      decide

/-- C12 at `host all all 0.0.0.0/0 trust` followed by
`host mydb app 10.0.0.5/32 scram-sha-256`. -/
theorem weak_masks_strong_witness :
    CheckOverlaps [trustFirst, appRule 2] =
      [{ Severity := "WARN", Code := "overlyBroadRule", Line := 1,
         Message := "Broad rule shadows stricter rule at line 2." },
       { Severity := "WARN", Code := "shadowedByBroadRule", Line := 2,
         Message := "Rule is shadowed by broader rule at line 1." }] :=
  (weak_masks_strong trustFirst (appRule 2) (by decide) (by decide) (by decide)
    (by decide) (by decide) (by decide) (by decide)).1

/-! ## C13: the host shadow falls through -/

/-- C13. Host-shadow fall-through: for a fully covered pair with a bare `host` rule
over a `hostssl` or `hostnossl` rule, outside the reject case, the findings are WARN
`shadowedByHost` at the later line followed by exactly one group: the two findings of
(c), or `redundantRule` (d), or `shadowedRule` (e); hence 2 or 3 findings. -/
theorem host_shadow_fall_through (earlier later : Rule)
    (hE : earlier.Type_ = "host")
    (hL : later.Type_ = "hostssl" ∨ later.Type_ = "hostnossl")
    (hA : earlier.Addr.Covers later.Addr = true)
    (hD : dbCovers earlier.DBs later.DBs = true)
    (hU : userCovers earlier.Users later.Users = true)
    (hO : optsNotStricter earlier.Opts later.Opts = true)
    (hR : ¬ (earlier.Method = "reject" ∧ later.Method ≠ "reject")) :
    ∃ group,
      CheckOverlaps [earlier, later] =
        { Severity := SeverityWarn, Code := "shadowedByHost", Line := later.Line,
          Message := "host rule at line " ++ toString earlier.Line ++ " shadows this rule." }
          :: group
      ∧ (group = broadIssues earlier later ∨ group = [redundantIssue earlier later]
          ∨ group = [shadowedIssue earlier later])
      ∧ ((CheckOverlaps [earlier, later]).length = 2
          ∨ (CheckOverlaps [earlier, later]).length = 3) := by
  have hT : compatibleType earlier.Type_ later.Type_ = true := by
    rcases hL with h | h <;> rw [hE, h] <;> decide
  have hH : hostShadowIssues earlier later =
      [{ Severity := SeverityWarn, Code := "shadowedByHost", Line := later.Line,
         Message := "host rule at line " ++ toString earlier.Line ++ " shadows this rule." }] := by
    rcases hL with h | h <;> simp [hostShadowIssues, hE, h]
  rw [CheckOverlaps_pair, pairIssues_of_cover earlier later hT hA hD hU hO,
    overlapIssues_not_reject earlier later hR, hH]
  by_cases hw : isWeaker earlier.Method later.Method = true
  · exact ⟨broadIssues earlier later, by rw [if_pos hw]; rfl, Or.inl rfl,
      Or.inr (by rw [if_pos hw]; rfl)⟩
  · by_cases hq : (earlier.Method == later.Method
        && optsEqual earlier.Opts later.Opts) = true
    · exact ⟨[redundantIssue earlier later], by rw [if_neg hw, if_pos hq]; rfl,
        Or.inr (Or.inl rfl), Or.inl (by rw [if_neg hw, if_pos hq]; rfl)⟩
    · exact ⟨[shadowedIssue earlier later], by rw [if_neg hw, if_neg hq]; rfl,
        Or.inr (Or.inr rfl), Or.inl (by rw [if_neg hw, if_neg hq]; rfl)⟩

/-- C13 at `host all all 0.0.0.0/0 trust` followed by
`hostssl all all 0.0.0.0/0 scram-sha-256`: three findings. -/
theorem host_shadow_fall_through_witness :
    ∃ group,
      CheckOverlaps [trustFirst, sslAll] =
        { Severity := "WARN", Code := "shadowedByHost", Line := 2,
          Message := "host rule at line 1 shadows this rule." } :: group
      ∧ (group = broadIssues trustFirst sslAll ∨ group = [redundantIssue trustFirst sslAll]
          ∨ group = [shadowedIssue trustFirst sslAll])
      ∧ ((CheckOverlaps [trustFirst, sslAll]).length = 2
          ∨ (CheckOverlaps [trustFirst, sslAll]).length = 3) :=
  host_shadow_fall_through trustFirst sslAll (by decide) (by decide) (by decide)
    (by decide) (by decide) (by decide) (by decide)

/-! ## C14: redundant versus generic shadow -/

/-- C14. Redundant versus generic shadow: for a fully covered pair outside the reject
case (a) and the weak-over-strong case (c), the findings are the optional
`shadowedByHost` followed by exactly one finding at the later line: INFO
`redundantRule` when the methods are equal and the two option maps have the same
keys with the same values, WARN `shadowedRule` otherwise. -/
theorem redundant_or_shadowed (earlier later : Rule)
    (hT : compatibleType earlier.Type_ later.Type_ = true)
    (hA : earlier.Addr.Covers later.Addr = true)
    (hD : dbCovers earlier.DBs later.DBs = true)
    (hU : userCovers earlier.Users later.Users = true)
    (hO : optsNotStricter earlier.Opts later.Opts = true)
    (hR : ¬ (earlier.Method = "reject" ∧ later.Method ≠ "reject"))
    (hW : ¬ (earlier.Method ∈ weakMethods ∧ later.Method ∈ strongMethods)) :
    ((earlier.Method = later.Method ∧ ∀ k, earlier.Opts.lookup k = later.Opts.lookup k) →
        CheckOverlaps [earlier, later] = hostShadowIssues earlier later ++
          [{ Severity := SeverityInfo, Code := "redundantRule", Line := later.Line,
             Message := "Rule is redundant due to line " ++ toString earlier.Line ++ "." }])
      ∧ (¬ (earlier.Method = later.Method
            ∧ ∀ k, earlier.Opts.lookup k = later.Opts.lookup k) →
        CheckOverlaps [earlier, later] = hostShadowIssues earlier later ++
          [{ Severity := SeverityWarn, Code := "shadowedRule", Line := later.Line,
             Message := "Rule is fully shadowed by line " ++ toString earlier.Line ++ "." }]) := by
  have hw : ¬ isWeaker earlier.Method later.Method = true := fun h => hW ((isWeaker_iff _ _).1 h)
  have hq : (earlier.Method == later.Method && optsEqual earlier.Opts later.Opts) = true
      ↔ (earlier.Method = later.Method
          ∧ ∀ k, earlier.Opts.lookup k = later.Opts.lookup k) := by
    rw [Bool.and_eq_true, beq_iff_eq, optsEqual_iff_of_notStricter _ _ hO]
  rw [CheckOverlaps_pair, pairIssues_of_cover earlier later hT hA hD hU hO,
    overlapIssues_not_reject earlier later hR, if_neg hw]
  constructor
  · intro h
    rw [if_pos (hq.2 h)]
    rfl
  · intro h
    rw [if_neg (fun hc => h (hq.1 hc))]
    rfl

/-- C14 at `host all all 10.0.0.0/16 scram-sha-256` followed by
`host all all 10.0.0.5/32 md5` (methods differ: `shadowedRule`), and at two copies of
`host mydb app 10.0.0.5/32 scram-sha-256` (`redundantRule`). -/
theorem redundant_or_shadowed_witness :
    CheckOverlaps [hostWide, md5Narrow] =
        [{ Severity := "WARN", Code := "shadowedRule", Line := 2,
           Message := "Rule is fully shadowed by line 1." }]
      ∧ CheckOverlaps [appRule 1, appRule 2] =
        [{ Severity := "INFO", Code := "redundantRule", Line := 2,
           Message := "Rule is redundant due to line 1." }] :=
  ⟨(redundant_or_shadowed hostWide md5Narrow (by decide) (by decide) (by decide)
      (by decide) (by decide) (by decide) (by decide)).2
      (fun h => absurd h.1 (by decide)),
   (redundant_or_shadowed (appRule 1) (appRule 2) (by decide) (by decide) (by decide)
      (by decide) (by decide) (by decide) (by decide)).1 ⟨rfl, fun _ => rfl⟩⟩

/-! ## C15: emission order and pair independence -/

/-- A left fold that appends `g x` for each `x` is the concatenation of the `g x`. -/
theorem foldl_append_flatMap {α β : Type} (g : α → List β) (l : List α) (acc : List β) :
    l.foldl (fun acc x => acc ++ g x) acc = acc ++ l.flatMap g := by
  induction l generalizing acc with
  | nil => simp
  | cons x xs ih =>
    rw [List.foldl_cons, ih, List.flatMap_cons, List.append_assoc]

/-- Two functions that agree on the members of a list have the same `flatMap`. -/
theorem flatMap_congr_mem {α β : Type} (f g : α → List β) (l : List α)
    (h : ∀ x ∈ l, f x = g x) : l.flatMap f = l.flatMap g := by
  induction l with
  | nil => rfl
  | cons x xs ih =>
    rw [List.flatMap_cons, List.flatMap_cons, h x (List.mem_cons_self _ _),
      ih (fun y hy => h y (List.mem_cons_of_mem _ hy))]

/-- Running through the indices of a list and reading each element is running through
the list. -/
theorem flatMap_range_getElem {α β : Type} (f : α → List β) (l : List α) :
    (List.range l.length).flatMap
        (fun i => match l[i]? with
          | some x => f x
          | none => []) = l.flatMap f := by
  induction l using List.reverseRecOn with
  | nil => rfl
  | append_singleton xs a ih =>
    rw [List.length_append, List.length_singleton, List.range_succ, List.flatMap_append,
      List.flatMap_append]
    congr 1
    · rw [← ih]
      apply flatMap_congr_mem
      intro i hi
      rw [List.mem_range] at hi
      rw [List.getElem?_append_left hi]
    · simp

/-- The inner loop appends the findings of the pairs `(rules[i], rj)`, `i < j`, in
ascending order of `i`. -/
theorem overlapsInner_eq (rules : List Rule) (rj : Rule) (j : Nat) (acc : List Issue) :
    overlapsInner rules rj j acc = acc ++ (List.range j).flatMap
      (fun i => match rules[i]? with
        | some ri => pairIssues ri rj
        | none => []) := by
  unfold overlapsInner
  rw [← foldl_append_flatMap]
  congr 1
  funext acc i
  cases rules[i]? <;> simp

/-- Function `CheckOverlaps` as a concatenation over `j`, then over `i < j`. -/
theorem CheckOverlaps_eq_flatMap (rules : List Rule) :
    CheckOverlaps rules = (List.range rules.length).flatMap (fun j =>
      match rules[j]? with
      | some rj => (List.range j).flatMap
          (fun i => match rules[i]? with
            | some ri => pairIssues ri rj
            | none => [])
      | none => []) := by
  unfold CheckOverlaps
  have h := foldl_append_flatMap (fun j =>
      match rules[j]? with
      | some rj => (List.range j).flatMap
          (fun i => match rules[i]? with
            | some ri => pairIssues ri rj
            | none => [])
      | none => []) (List.range rules.length) []
  rw [List.nil_append] at h
  rw [← h]
  congr 1
  funext acc j
  cases rules[j]? with
  | none => simp
  | some rj => exact overlapsInner_eq rules rj j acc

/-- Appending a rule keeps the findings of the list and adds, in order, the findings
of each earlier rule against the new one. -/
theorem CheckOverlaps_append_one (rules : List Rule) (r : Rule) :
    CheckOverlaps (rules ++ [r]) =
      CheckOverlaps rules ++ rules.flatMap (fun ri => pairIssues ri r) := by
  rw [CheckOverlaps_eq_flatMap, CheckOverlaps_eq_flatMap, List.length_append,
    List.length_singleton, List.range_succ, List.flatMap_append]
  congr 1
  · apply flatMap_congr_mem
    intro j hj
    rw [List.mem_range] at hj
    rw [List.getElem?_append_left hj]
    cases rules[j]? with
    | none => rfl
    | some rj =>
      apply flatMap_congr_mem
      intro i hi
      rw [List.mem_range] at hi
      rw [List.getElem?_append_left (lt_trans hi hj)]
  · simp only [List.flatMap_cons, List.flatMap_nil, List.append_nil]
    have hlast : (rules ++ [r])[rules.length]? = some r := by simp
    rw [hlast]
    rw [← flatMap_range_getElem (fun ri => pairIssues ri r) rules]
    apply flatMap_congr_mem
    intro i hi
    rw [List.mem_range] at hi
    rw [List.getElem?_append_left hi]
    cases rules[i]? <;> rfl

/-- C15. Emission order and pair independence: `CheckOverlaps rules` is the
concatenation, for `j` ascending and `i < j` ascending, of the findings of the
two-rule lists `[rules[i], rules[j]]`; and `CheckOverlaps (rules ++ [r])` is
`CheckOverlaps rules` followed by the findings of `[ri, r]` for each `ri` of `rules`
in order, so that earlier output is a prefix and nothing is merged or dropped. -/
theorem emission_order (rules : List Rule) :
    CheckOverlaps rules = pairwiseFindings rules
      ∧ ∀ r : Rule, CheckOverlaps (rules ++ [r]) =
          CheckOverlaps rules ++ rules.flatMap (fun ri => CheckOverlaps [ri, r]) := by
  constructor
  · rw [CheckOverlaps_eq_flatMap]
    unfold pairwiseFindings
    apply flatMap_congr_mem
    intro j _
    cases hj : rules[j]? with
    | none =>
      symm
      rw [List.flatMap_eq_nil_iff]
      intro i _
      cases rules[i]? <;> rfl
    | some rj =>
      apply flatMap_congr_mem
      intro i _
      cases rules[i]? <;> rfl
  · intro r
    exact CheckOverlaps_append_one rules r

/-- C15 at the rules `host all all 0.0.0.0/0 trust` and
`hostssl all all 0.0.0.0/0 scram-sha-256` extended by `local all all peer`: the
findings of the first two stay in front, and the `local` rule adds none. -/
theorem emission_order_witness :
    CheckOverlaps ([trustFirst, sslAll] ++ [localPeer]) =
      CheckOverlaps [trustFirst, sslAll]
        ++ [trustFirst, sslAll].flatMap (fun ri => CheckOverlaps [ri, localPeer]) :=
  (emission_order [trustFirst, sslAll]).2 localPeer

/-! ## Auxiliary facts on the per-rule checks -/

/-- Function `CheckSimpleRules` is the concatenation of the loop body over the rules. -/
theorem CheckSimpleRules_eq_flatMap (lib : StdLib) (rules : List Rule) (cfg : Config) :
    CheckSimpleRules lib rules cfg = rules.flatMap (simpleRuleIssues lib (withDefaults cfg)) := by
  unfold CheckSimpleRules
  rw [foldl_append_flatMap, List.nil_append]

/-- Filtering a conditional one-element list. -/
theorem filter_ite_singleton {α : Type} (p : α → Bool) (c : Prop) [Decidable c] (x : α) :
    (if c then [x] else []).filter p = if c then (if p x then [x] else []) else [] := by
  split
  · cases h : p x <;> simp [h]
  · rfl

/-- The password findings of one rule: the finding of `passwordIssue` when the method
is `password`, none otherwise. -/
theorem simpleRuleIssues_password (lib : StdLib) (cfg : Config) (r : Rule) :
    (simpleRuleIssues lib (withDefaults cfg) r).filter (fun f => passwordCodes.contains f.Code) =
      if r.Method == "password" then [passwordIssue cfg r] else [] := by
  have hssl : (withDefaults cfg).SSLOn = cfg.SSLOn := rfl
  unfold simpleRuleIssues
  simp only [List.filter_append, hssl]
  simp only [apply_ite (List.filter _), List.filter_cons, List.filter_nil, passwordCodes,
    List.contains_cons, List.contains_nil]
  simp +decide only [Bool.or_false, Bool.false_or, if_false, List.append_nil,
    List.nil_append, ite_self, beq_self_eq_true, Bool.or_true, Bool.true_or, if_true]
  have hcc : List.filter
      (fun f : Issue => f.Code == "passwordNoSSL"
        || (f.Code == "passwordWithTLS" || f.Code == "passwordNoTLS"))
      (match AList.lookup "clientcert" r.Opts with
        | some v =>
          if (r.Type_ != "hostssl") = true then
            [{ Severity := SeverityError, Code := "clientcertNonHostssl", Line := r.Line,
               Message := "clientcert is allowed only for hostssl." }]
          else
            if (lib.ToLower v != "verify-ca" && lib.ToLower v != "verify-full") = true then
              [{ Severity := SeverityError, Code := "clientcertInvalid", Line := r.Line,
                 Message := "clientcert must be verify-ca or verify-full." }]
            else []
        | none => []) = [] := by
    cases AList.lookup "clientcert" r.Opts with
    | none => rfl
    | some v =>
      simp only []
      split
      · rfl
      · split <;> rfl
  rw [hcc, List.append_nil]
  unfold passwordIssue
  cases hS : cfg.SSLOn <;> by_cases hT : r.Type_ = "hostssl" <;> simp [hT]

/-! ## C18: the cleartext password check -/

/-- C18. Cleartext password check: among the findings of `CheckSimpleRules`, those
with one of the three password codes are, in rule order, exactly one per rule of
method `password`, at its line: ERROR `passwordNoSSL` when `SSLOn` is false, WARN
`passwordWithTLS` when `SSLOn` is true and the type is `hostssl`, ERROR
`passwordNoTLS` when `SSLOn` is true and the type is anything else. Rules of any
other method contribute none of the three codes. -/
theorem cleartext_password (lib : StdLib) (rules : List Rule) (cfg : Config) :
    (CheckSimpleRules lib rules cfg).filter (fun f => passwordCodes.contains f.Code) =
      (rules.filter (fun r => r.Method == "password")).map (passwordIssue cfg) := by
  rw [CheckSimpleRules_eq_flatMap]
  induction rules with
  | nil => rfl
  | cons r rs ih =>
    rw [List.flatMap_cons, List.filter_append, ih, simpleRuleIssues_password,
      List.filter_cons]
    cases r.Method == "password" <;> simp

/-- C18 at `host all all 10.0.0.0/16 password` followed by
`hostssl all all 10.0.0.5/32 password`, with SSL on. -/
theorem cleartext_password_witness :
    (CheckSimpleRules exampleLib [passwordHost, passwordSSL] cfgSSL).filter
        (fun f => passwordCodes.contains f.Code) =
      [{ Severity := "ERROR", Code := "passwordNoTLS", Line := 1,
         Message := "Unsafe: password method without guaranteed TLS. Use hostssl + scram-sha-256." },
       { Severity := "WARN", Code := "passwordWithTLS", Line := 2,
         Message := "Password method sends cleartext password. Use scram-sha-256 or stronger." }] :=
  cleartext_password exampleLib [passwordHost, passwordSSL] cfgSSL

/-! ## C19: trust over the network is an error -/

/-- Each finding of a rule's loop body is among the findings of `CheckAll`. -/
theorem mem_CheckAll_of_simple (lib : StdLib) (rules : List Rule) (cfg : Config) (r : Rule)
    (f : Issue)
    (hr : r ∈ rules) (hf : f ∈ simpleRuleIssues lib (withDefaults cfg) r) :
    f ∈ CheckAll lib rules cfg := by
  unfold CheckAll
  rw [List.mem_append, CheckSimpleRules_eq_flatMap, List.mem_flatMap]
  exact Or.inl ⟨r, hr, hf⟩

/-- Function `hasError` finds a finding of severity ERROR exactly when there is one. -/
theorem hasError_iff (issues : List Issue) :
    hasError issues = true ↔ ∃ f ∈ issues, f.Severity = SeverityError := by
  unfold hasError
  rw [List.any_eq_true]
  constructor
  · rintro ⟨f, hf, h⟩
    exact ⟨f, hf, by simpa using h⟩
  · rintro ⟨f, hf, h⟩
    exact ⟨f, hf, by simpa using h⟩

/-- C19. Trust over network is an error: when the rule list holds a host-family rule
`r` of method `trust`, then under every configuration `CheckAll` returns the ERROR
finding `trustNetwork` at the line of `r`, `hasError` is true on the result and the
exit code is 1; and `hasError` is true iff some finding has severity ERROR. -/
theorem trust_network_error (lib : StdLib) (rules : List Rule) (cfg : Config) (r : Rule)
    (hr : r ∈ rules) (hH : r.Type_ ∈ hostFamily) (hM : r.Method = "trust") :
    trustNetworkIssue r ∈ CheckAll lib rules cfg
      ∧ hasError (CheckAll lib rules cfg) = true
      ∧ exitCode lib rules cfg = 1
      ∧ ∀ issues : List Issue,
          hasError issues = true ↔ ∃ f ∈ issues, f.Severity = SeverityError := by
  have hHost : r.IsHost = true := by
    simp only [hostFamily, List.mem_cons, List.mem_singleton, List.not_mem_nil,
      or_false] at hH
    unfold Rule.IsHost
    rcases hH with h | h | h | h | h <;> rw [h] <;> decide
  have hmem : trustNetworkIssue r ∈ CheckAll lib rules cfg := by
    apply mem_CheckAll_of_simple lib rules cfg r _ hr
    unfold simpleRuleIssues trustNetworkIssue
    simp [hHost, hM]
  have hErr : hasError (CheckAll lib rules cfg) = true :=
    (hasError_iff _).2 ⟨_, hmem, rfl⟩
  refine ⟨hmem, hErr, ?_, hasError_iff⟩
  unfold exitCode
  rw [if_pos hErr]

/-- C19 at `host all all 0.0.0.0/0 trust` followed by
`hostssl all all 0.0.0.0/0 scram-sha-256`, with SSL on. -/
theorem trust_network_error_witness :
    ({ Severity := "ERROR", Code := "trustNetwork", Line := 1,
       Message := "Unsafe: trust for network connections. Any client can log in as any user without a password." }
        : Issue) ∈ CheckAll exampleLib [trustFirst, sslAll] cfgSSL
      ∧ hasError (CheckAll exampleLib [trustFirst, sslAll] cfgSSL) = true
      ∧ exitCode exampleLib [trustFirst, sslAll] cfgSSL = 1 :=
  have h := trust_network_error exampleLib [trustFirst, sslAll] cfgSSL trustFirst
    (List.mem_cons_self _ _) (by decide) (by decide)
  ⟨h.1, h.2.1, h.2.2.1⟩

/-! ## Auxiliary facts on the loopback networks -/

set_option maxRecDepth 100000 in
/-- A byte is unchanged by the mask `0xff`. -/
theorem land_255 : ∀ x, x < 256 → x &&& 255 = x := by
  decide

/-- The 4-byte form of an address whose bytes are below 256 has bytes below 256. -/
theorem To4_bytes {ip x : List Nat} (h : To4 ip = some x)
    (hb : ip.all (fun v => decide (v < 256)) = true) : ∀ v ∈ x, v < 256 := by
  rw [List.all_eq_true] at hb
  intro v hv
  unfold To4 at h
  split at h
  · cases h
    simpa using hb v hv
  · split at h
    · cases h
      simpa using hb v (List.mem_of_mem_drop hv)
    · cases h

/-- An IPv4 address lies in `127.0.0.0/8` iff its first byte is 127. -/
theorem loop4_Contains {ip x : List Nat} (h : To4 ip = some x)
    (hb : ∀ v ∈ x, v < 256) : loop4.Contains ip = true ↔ x.head? = some 127 := by
  have hl := To4_length h
  have hn : networkNumberAndMask loop4 = some ([127, 0, 0, 0], [255, 0, 0, 0]) := by decide
  unfold IPNet.Contains
  rw [hn, h]
  rcases x with _ | ⟨x0, _ | ⟨x1, _ | ⟨x2, _ | ⟨x3, _ | ⟨x4, t⟩⟩⟩⟩⟩ <;>
    simp at hl
  have h0 : x0 &&& 255 = x0 := land_255 x0 (hb x0 (by simp))
  simp only [List.range_succ, List.range_zero, h0, List.length_cons, List.length_nil,
    Option.getD_some, ne_eq, not_true_eq_false, if_false, List.nil_append, List.cons_append,
    List.all_cons, List.all_nil, List.getD_cons_zero, List.getD_cons_succ, Nat.and_zero,
    beq_self_eq_true, Bool.and_true, beq_iff_eq, List.head?_cons, Option.some.injEq,
    Nat.zero_add, Nat.reduceAdd]
  have h127 : 127 &&& 255 = 127 := by decide
  rw [h127]
  exact eq_comm


/-- The size of the mask of `::1/128`. -/
theorem maskOnes_loop6 : maskOnes loop6.Mask = 128 := by decide

/-- The size of the mask of `127.0.0.0/8`. -/
theorem maskOnes_loop4 : maskOnes loop4.Mask = 8 := by decide

/-- An IPv6 address of 16 bytes lies in `::1/128` iff it is `::1`. -/
theorem loop6_Contains {ip : List Nat} (h : To4 ip = none) (hl : ip.length = 16)
    (hb : ∀ v ∈ ip, v < 256) : loop6.Contains ip = true ↔ ip = ipv6Loopback := by
  constructor
  · intro hc
    have hn : networkNumberAndMask loop6 = some (ipv6Loopback,
        [255, 255, 255, 255, 255, 255, 255, 255, 255, 255, 255, 255, 255, 255, 255, 255]) := by
      decide
    unfold IPNet.Contains at hc
    rw [hn, h] at hc
    rcases ip with _ | ⟨x0, _ | ⟨x1, _ | ⟨x2, _ | ⟨x3, _ | ⟨x4, _ | ⟨x5, _ | ⟨x6, _ |
      ⟨x7, _ | ⟨x8, _ | ⟨x9, _ | ⟨x10, _ | ⟨x11, _ | ⟨x12, _ | ⟨x13, _ | ⟨x14, _ |
      ⟨x15, _ | ⟨x16, t⟩⟩⟩⟩⟩⟩⟩⟩⟩⟩⟩⟩⟩⟩⟩⟩⟩ <;> simp at hl
    have e0 := land_255 x0 (hb x0 (by simp))
    have e1 := land_255 x1 (hb x1 (by simp))
    have e2 := land_255 x2 (hb x2 (by simp))
    have e3 := land_255 x3 (hb x3 (by simp))
    have e4 := land_255 x4 (hb x4 (by simp))
    have e5 := land_255 x5 (hb x5 (by simp))
    have e6 := land_255 x6 (hb x6 (by simp))
    have e7 := land_255 x7 (hb x7 (by simp))
    have e8 := land_255 x8 (hb x8 (by simp))
    have e9 := land_255 x9 (hb x9 (by simp))
    have e10 := land_255 x10 (hb x10 (by simp))
    have e11 := land_255 x11 (hb x11 (by simp))
    have e12 := land_255 x12 (hb x12 (by simp))
    have e13 := land_255 x13 (hb x13 (by simp))
    have e14 := land_255 x14 (hb x14 (by simp))
    have e15 := land_255 x15 (hb x15 (by simp))
    simp [List.range_succ, ipv6Loopback, e0, e1, e2, e3, e4, e5, e6, e7, e8, e9, e10,
      e11, e12, e13, e14, e15] at hc
    simp [ipv6Loopback]
    omega
  · intro hc
    subst hc
    decide

/-- The bytes of the address of a well-formed network are below 256. -/
theorem WellFormed_bytes {n : IPNet} (h : n.WellFormed = true) :
    n.IP.all (fun v => decide (v < 256)) = true := by
  simp only [IPNet.WellFormed, Bool.and_eq_true] at h
  exact h.1.2

/-- A well-formed network on an IPv6 address has a mask `CIDRMask k 128`. -/
theorem WellFormed_v6_mask {n : IPNet} (h : n.WellFormed = true) (h6 : To4 n.IP = none) :
    ∃ k, CIDRMask k 128 = some n.Mask := by
  simp only [IPNet.WellFormed, Bool.and_eq_true, Bool.or_eq_true, List.any_eq_true,
    beq_iff_eq] at h
  rcases h.2 with ⟨h4, _⟩ | ⟨k, _, hk⟩
  · rw [h6] at h4
    cases h4
  · exact ⟨k, hk⟩

/-- The IPv4 arm of `IsLoopbackOnly`: first byte 127 and a mask of size at least 8. -/
theorem cidrContains_loop4 {n : IPNet} {x : List Nat} (hW : n.WellFormed = true)
    (h4 : To4 n.IP = some x) :
    cidrContains loop4 n = true ↔ (x.head? = some 127 ∧ 8 ≤ maskOnes n.Mask) := by
  have hc := loop4_Contains h4 (To4_bytes h4 (WellFormed_bytes hW))
  unfold cidrContains
  rw [maskOnes_loop4]
  cases hC : loop4.Contains n.IP with
  | true =>
    rw [hC] at hc
    simp [hc.1 rfl]
  | false =>
    rw [hC] at hc
    simp only [Bool.not_false, if_true, Bool.false_eq_true, false_iff, not_and]
    intro hx
    exact absurd (hc.2 hx) (by simp)

/-- The IPv6 arm of `IsLoopbackOnly`: the network is `::1/128`. -/
theorem cidrContains_loop6 {n : IPNet} (hW : n.WellFormed = true)
    (h6 : To4 n.IP = none) : cidrContains loop6 n = true ↔ n = loop6 := by
  constructor
  · intro h
    have hl : n.IP.length = 16 := by
      rcases WellFormed_ip_length hW with hl | hl
      · simp [To4, hl] at h6
      · exact hl
    have hb : ∀ v ∈ n.IP, v < 256 := by
      intro v hv
      simpa using (List.all_eq_true.1 (WellFormed_bytes hW)) v hv
    unfold cidrContains at h
    rw [maskOnes_loop6] at h
    cases hC : loop6.Contains n.IP with
    | false => simp [hC] at h
    | true =>
      simp only [hC, Bool.not_true, Bool.false_eq_true, if_false, decide_eq_true_eq] at h
      have hip : n.IP = ipv6Loopback := (loop6_Contains h6 hl hb).1 hC
      obtain ⟨k, hk⟩ := WellFormed_v6_mask hW h6
      have hk2 : maskOnes n.Mask = k := maskOnes_CIDRMask hk
      have hk128 : k = 128 := by
        have hle : k ≤ 128 := by
          unfold CIDRMask at hk
          by_contra hgt
          simp [Nat.lt_of_not_le hgt] at hk
        omega
      subst hk128
      have hm : n.Mask = loop6.Mask := by
        have : some n.Mask = some loop6.Mask := by rw [← hk]; decide
        exact Option.some.inj this
      cases n
      simp only at hip hm
      rw [hip, hm]
      rfl
  · intro h
    subst h
    decide

/-! ## The test of `IsLoopbackOnly` -/

/-- What `IsLoopbackOnly` tests on an address set `a` of well-formed networks: `a.Any`
is false, `a` has a network, every network with an IPv4 address has 127 as the
first byte of the address and a mask of size at least 8, and every other network is
`::1/128`. The size of the mask is counted on the mask as stored, 4 or 16 bytes. -/
theorem IsLoopbackOnly_iff (a : AddrSet) (hW : a.WellFormed = true) :
    a.IsLoopbackOnly = true ↔
      (a.Any = false ∧ a.Networks ≠ []
        ∧ (∀ n ∈ a.Networks, ∀ x, To4 n.IP = some x →
            x.head? = some 127 ∧ 8 ≤ maskOnes n.Mask)
        ∧ (∀ n ∈ a.Networks, To4 n.IP = none → n = loop6)) := by
  have hWn : ∀ n ∈ a.Networks, n.WellFormed = true := fun n hn =>
    (List.all_eq_true.1 hW) n hn
  unfold AddrSet.IsLoopbackOnly
  cases hAny : a.Any with
  | true => simp
  | false =>
    by_cases hne : a.Networks = []
    · simp [hne]
    · have hlen : ¬ a.Networks.length = 0 := fun h => hne (List.length_eq_zero.1 h)
      simp only [Bool.false_eq_true, if_false, hlen, List.all_eq_true, true_and, ne_eq, hne,
        not_false_eq_true]
      constructor
      · intro h
        refine ⟨?_, ?_⟩
        · intro n hn x hx
          have := h n hn
          rw [hx] at this
          exact (cidrContains_loop4 (hWn n hn) hx).1 (by simpa using this)
        · intro n hn h6
          have := h n hn
          rw [h6] at this
          exact (cidrContains_loop6 (hWn n hn) h6).1 (by simpa using this)
      · rintro ⟨h4, h6⟩ n hn
        cases hx : To4 n.IP with
        | some x =>
          simp only [Option.isSome_some, if_true]
          exact (cidrContains_loop4 (hWn n hn) hx).2 (h4 n hn x hx)
        | none =>
          simp only [Option.isSome_none, Bool.false_eq_true, if_false]
          exact (cidrContains_loop6 (hWn n hn) hx).2 (h6 n hn hx)

/-- The address set parsed from `samehost` is loopback-only, the ones parsed from
`all` and `samenet` are not, whenever `strings.ToLower` leaves the three keywords
as they are. -/
theorem ParseAddr_keywords_loopback (lib : StdLib)
    (h1 : lib.ToLower "samehost" = "samehost") (h2 : lib.ToLower "all" = "all")
    (h3 : lib.ToLower "samenet" = "samenet") :
    (ParseAddr lib "samehost").toOption.map AddrSet.IsLoopbackOnly = some true
      ∧ (ParseAddr lib "all").toOption.map AddrSet.IsLoopbackOnly = some false
      ∧ (ParseAddr lib "samenet").toOption.map AddrSet.IsLoopbackOnly = some false := by
  have t1 : TrimSpace "samehost" = "samehost" := by decide
  have t2 : TrimSpace "all" = "all" := by decide
  have t3 : TrimSpace "samenet" = "samenet" := by decide
  refine ⟨?_, ?_, ?_⟩
  · unfold ParseAddr
    simp only [t1, h1]
    rfl
  · unfold ParseAddr
    simp only [t2, h2]
    rfl
  · unfold ParseAddr
    simp only [t3, h3]
    rfl

/-! ## C17: what `ParseAddr` stores for a CIDR literal -/

/-- C17, as stated, fails: for the literal `10.0.0.5/16` `ParseAddr` stores the
address `10.0.0.5` under the mask `255.255.0.0`; the stored address is not the base
`10.0.0.0` of the network. -/
theorem cidr_not_normalised :
    (ParseAddr exampleLib "10.0.0.5/16").toOption.map (fun a => a.Networks)
        = some [{ IP := ipv4 10 0 0 5, Mask := [255, 255, 0, 0] }]
      ∧ To4 (ipv4 10 0 0 5) = some [10, 0, 0, 5]
      ∧ IPNet.base { IP := ipv4 10 0 0 5, Mask := [255, 255, 0, 0] } = [10, 0, 0, 0]
      ∧ IPNet.isBase { IP := ipv4 10 0 0 5, Mask := [255, 255, 0, 0] } = false := by
  decide

/-- A string holding a slash is none of the keywords. -/
theorem not_keyword_of_slash {s : String} (h : containsSlash s = true) :
    s ≠ "all" ∧ s ≠ "samehost" ∧ s ≠ "samenet" := by
  refine ⟨?_, ?_, ?_⟩ <;> intro hs <;> subst hs <;> revert h <;> decide

/-- C17, amended. For every token that is a valid CIDR literal (after trimming and
lowering it holds a slash and `net.ParseCIDR` accepts it, returning the address `ip`
as written and the network `ipnet`), `ParseAddr` succeeds and stores a single
network: the mask of `ipnet` with the address `ip` as written, host bits included. -/
theorem cidr_keeps_address (lib : StdLib) (token : String) (ip : List Nat)
    (ipnet : IPNet)
    (hS : containsSlash (lib.ToLower (TrimSpace token)) = true)
    (hP : lib.ParseCIDR (lib.ToLower (TrimSpace token)) = some (ip, ipnet)) :
    ParseAddr lib token = .ok
      { Any := false, Special := "", Networks := [{ IP := ip, Mask := ipnet.Mask }],
        HasIPv4 := (To4 ip).isSome, HasIPv6 := (To4 ip).isNone, OrigToken := token } := by
  obtain ⟨h1, h2, h3⟩ := not_keyword_of_slash hS
  unfold ParseAddr
  simp only [h1, h2, h3, if_false, hS, if_true, hP]

/-- C17, amended, at the literal `10.0.0.5/16`: stored as address `10.0.0.5` with
the 16-bit mask. -/
theorem cidr_keeps_address_witness :
    ParseAddr exampleLib "10.0.0.5/16" = .ok
      { Any := false, Special := "", Networks := [{ IP := ipv4 10 0 0 5, Mask := [255, 255, 0, 0] }],
        HasIPv4 := true, HasIPv6 := false, OrigToken := "10.0.0.5/16" } :=
  cidr_keeps_address exampleLib "10.0.0.5/16" (ipv4 10 0 0 5)
    { IP := [10, 0, 0, 0], Mask := [255, 255, 0, 0] } (by decide) (by decide)

/-! ## Auxiliary facts on masks and membership -/

/-- Past its ones a mask of `net.CIDRMask` is zero. -/
theorem cidrMaskBytes_zero (l i : Nat) : (cidrMaskBytes l 0).getD i 0 = 0 := by
  induction l generalizing i with
  | zero => rfl
  | succ l ih =>
    unfold cidrMaskBytes
    cases i with
    | zero => rfl
    | succ i => simpa using ih i

/-- The partial mask bytes of `net.CIDRMask` are nested. -/
theorem partial_mask_nested : ∀ a, a < 8 → ∀ b, b < 8 → a ≤ b →
    (0xff - (0xff >>> a)) &&& (0xff - (0xff >>> b)) = 0xff - (0xff >>> a) := by
  decide

/-- A partial mask byte of `net.CIDRMask` is unchanged by the full byte. -/
theorem partial_mask_full : ∀ a, a < 8 → (0xff - (0xff >>> a)) &&& 0xff = 0xff - (0xff >>> a) := by
  decide

/-- A mask of fewer ones is contained, byte by byte, in a mask of more ones. -/
theorem cidrMaskBytes_nested (l a b i : Nat) (h : a ≤ b) :
    (cidrMaskBytes l a).getD i 0 &&& (cidrMaskBytes l b).getD i 0
      = (cidrMaskBytes l a).getD i 0 := by
  induction l generalizing a b i with
  | zero => simp [cidrMaskBytes]
  | succ l ih =>
    unfold cidrMaskBytes
    by_cases ha : a ≥ 8
    · have hb : b ≥ 8 := le_trans ha h
      rw [if_pos ha, if_pos hb]
      cases i with
      | zero => simp
      | succ i =>
        simp only [List.getD_cons_succ]
        exact ih (a - 8) (b - 8) i (by omega)
    · rw [if_neg ha]
      cases i with
      | zero =>
        by_cases hb : b ≥ 8
        · rw [if_pos hb]
          exact partial_mask_full a (by omega)
        · rw [if_neg hb]
          exact partial_mask_nested a (by omega) b (by omega) h
      | succ i =>
        simp only [List.getD_cons_succ]
        rw [cidrMaskBytes_zero]
        simp

/-- Method `Contains` on a network whose number and mask are known: the address, in
its shortest form, has the length of the network number and agrees with it on every
mask bit. -/
theorem Contains_iff {n : IPNet} {nn m : List Nat} (ip : List Nat)
    (h : networkNumberAndMask n = some (nn, m)) :
    n.Contains ip = true ↔
      (((To4 ip).getD ip).length = nn.length
        ∧ ∀ i, i < nn.length →
            nn.getD i 0 &&& m.getD i 0 = ((To4 ip).getD ip).getD i 0 &&& m.getD i 0) := by
  unfold IPNet.Contains
  simp only [h, Option.getD_some]
  by_cases hl : ((To4 ip).getD ip).length = nn.length
  · simp only [hl, ne_eq, not_true_eq_false, if_false, List.all_eq_true, List.mem_range,
      beq_iff_eq, true_and]
  · simp [hl]

/-- A mask returned by `net.CIDRMask` is the mask loop run on `bits / 8` bytes. -/
theorem CIDRMask_eq {k bits : Nat} {m : List Nat} (h : CIDRMask k bits = some m) :
    m = cidrMaskBytes (bits / 8) k := by
  unfold CIDRMask at h
  split at h
  · cases h
  · split at h
    · cases h
    · cases h
      rfl

/-- The shape of a uniform network: `networkNumberAndMask` returns the address in its
shortest form, of 4 or 16 bytes, with the mask itself, which is the mask loop run on
as many bytes for `maskOnes` ones. -/
theorem Uniform_shape {n : IPNet} (h : n.Uniform = true) :
    networkNumberAndMask n = some ((To4 n.IP).getD n.IP, n.Mask)
      ∧ n.Mask = cidrMaskBytes ((To4 n.IP).getD n.IP).length (maskOnes n.Mask)
      ∧ ((To4 n.IP).getD n.IP).length = if (To4 n.IP).isSome then 4 else 16 := by
  simp only [IPNet.Uniform, Bool.and_eq_true, beq_iff_eq] at h
  obtain ⟨hW, hU⟩ := h
  have hWF := hW
  simp only [IPNet.WellFormed, Bool.and_eq_true, Bool.or_eq_true, List.any_eq_true,
    beq_iff_eq] at hW
  cases h4 : To4 n.IP with
  | some x =>
    have hx : x.length = 4 := To4_length h4
    rw [h4] at hU
    have hm4 : n.Mask.length = 4 := by simpa using hU.symm
    have hshape : ∃ k, CIDRMask k 32 = some n.Mask := by
      rcases hW.2 with ⟨_, k, _, hk⟩ | ⟨k, _, hk⟩
      · exact ⟨k, hk⟩
      · have := CIDRMask_length hk
        omega
    obtain ⟨k, hk⟩ := hshape
    refine ⟨?_, ?_, ?_⟩
    · unfold networkNumberAndMask
      simp [h4, hm4, hx]
    · rw [maskOnes_CIDRMask hk]
      simp only [Option.getD_some, hx]
      exact CIDRMask_eq hk
    · simp [hx]
  | none =>
    rw [h4] at hU
    have hm4 : ¬ n.Mask.length = 4 := by simpa using hU
    have hl16 : n.IP.length = 16 := by
      rcases WellFormed_ip_length hWF with hl | hl
      · simp [To4, hl] at h4
      · exact hl
    obtain ⟨k, hk⟩ := WellFormed_v6_mask hWF h4
    have hm16 : n.Mask.length = 16 := CIDRMask_length hk
    refine ⟨?_, ?_, ?_⟩
    · unfold networkNumberAndMask
      simp [h4, hm16, hl16]
    · rw [maskOnes_CIDRMask hk]
      simp only [Option.getD_none, hl16]
      exact CIDRMask_eq hk
    · simp [hl16]

/-- Between uniform networks of one family, `cidrContains a b` is sound for
membership: every address that `b` contains, `a` contains. -/
theorem cidrContains_sound {a b : IPNet} (ha : a.Uniform = true) (hb : b.Uniform = true)
    (hf : sameFamily a b = true) (hc : cidrContains a b = true) (ip : List Nat)
    (hip : b.Contains ip = true) : a.Contains ip = true := by
  obtain ⟨hna, hma, hla⟩ := Uniform_shape ha
  obtain ⟨hnb, hmb, hlb⟩ := Uniform_shape hb
  have hfam : (To4 a.IP).isSome = (To4 b.IP).isSome := by
    simpa [sameFamily] using hf
  have hlen : ((To4 a.IP).getD a.IP).length = ((To4 b.IP).getD b.IP).length := by
    rw [hla, hlb, hfam]
  have hcA : a.Contains b.IP = true ∧ maskOnes a.Mask ≤ maskOnes b.Mask := by
    unfold cidrContains at hc
    cases hC : a.Contains b.IP with
    | false => simp [hC] at hc
    | true => simpa [hC] using hc
  have h1 := (Contains_iff b.IP hna).1 hcA.1
  have h2 := (Contains_iff ip hnb).1 hip
  rw [Contains_iff ip hna]
  refine ⟨by rw [h2.1, hlen], ?_⟩
  intro i hi
  have e1 := h1.2 i hi
  have e2 := h2.2 i (by rw [← hlen]; exact hi)
  have hnest : a.Mask.getD i 0 &&& b.Mask.getD i 0 = a.Mask.getD i 0 := by
    rw [hma, hmb, ← hlen]
    exact cidrMaskBytes_nested _ _ _ i hcA.2
  rw [e1]
  calc ((To4 b.IP).getD b.IP).getD i 0 &&& a.Mask.getD i 0
      = ((To4 b.IP).getD b.IP).getD i 0 &&& (a.Mask.getD i 0 &&& b.Mask.getD i 0) := by
        rw [hnest]
    _ = (((To4 b.IP).getD b.IP).getD i 0 &&& b.Mask.getD i 0) &&& a.Mask.getD i 0 := by
        rw [Nat.and_comm (a.Mask.getD i 0), Nat.and_assoc]
    _ = (((To4 ip).getD ip).getD i 0 &&& b.Mask.getD i 0) &&& a.Mask.getD i 0 := by
        rw [e2]
    _ = ((To4 ip).getD ip).getD i 0 &&& (a.Mask.getD i 0 &&& b.Mask.getD i 0) := by
        rw [Nat.and_comm (a.Mask.getD i 0), Nat.and_assoc]
    _ = ((To4 ip).getD ip).getD i 0 &&& a.Mask.getD i 0 := by
        rw [hnest]

/-- Address cover is sound for membership on uniform networks: when `A` covers `B`,
neither being `Any`, every address contained in a network of `B` is contained in a
network of `A` of the same family. -/
theorem Covers_sound_uniform (A B : AddrSet) (hA : A.Any = false) (hB : B.Any = false)
    (hUA : ∀ n ∈ A.Networks, n.Uniform = true) (hUB : ∀ n ∈ B.Networks, n.Uniform = true)
    (hC : A.Covers B = true) (bn : IPNet) (hbn : bn ∈ B.Networks) (ip : List Nat)
    (hip : bn.Contains ip = true) :
    ∃ an ∈ A.Networks, sameFamily an bn = true ∧ an.Contains ip = true := by
  unfold AddrSet.Covers at hC
  simp only [hA, hB, Bool.false_eq_true, if_false] at hC
  split at hC
  · cases hC
  · rw [List.all_eq_true] at hC
    obtain ⟨an, han, hab⟩ := List.any_eq_true.1 (hC bn hbn)
    rw [Bool.and_eq_true] at hab
    exact ⟨an, han, hab.1,
      cidrContains_sound (hUA an han) (hUB bn hbn) hab.1 hab.2 ip hip⟩

/-! ## C20: address cover and membership -/

/-- C20 at its failing input. The address set of `10.0.0.0/20` covers the address set
of the IPv4-mapped literal `::ffff:10.0.0.1/100`, both well formed and not `Any`:
`sameFamily` holds, the first network contains `10.0.0.1`, and the mask sizes compare
as 20 ≤ 100. Yet the network of the second set contains the address `12.0.0.1` (its
16-byte mask leaves 4 bits on an IPv4 address), which no network of the first set
contains. The pair of rules is reported as `shadowedByReject` all the same. -/
theorem cover_unsound_on_mapped :
    rejectNarrow.Addr.Any = false ∧ trustMapped.Addr.Any = false
      ∧ rejectNarrow.Addr.WellFormed = true ∧ trustMapped.Addr.WellFormed = true
      ∧ rejectNarrow.Addr.Covers trustMapped.Addr = true
      ∧ trustMapped.Addr.Networks.any (fun bn => bn.Contains [12, 0, 0, 1]) = true
      ∧ rejectNarrow.Addr.Networks.any (fun an => an.Contains [12, 0, 0, 1]) = false
      ∧ CheckOverlaps [rejectNarrow, trustMapped] =
          [{ Severity := "ERROR", Code := "shadowedByReject", Line := 2,
             Message := "Rule is shadowed by reject at line 1." }] := by
  decide

/-! ## C23: a threshold of zero means the default -/

/-- Raising either threshold keeps an address set wide. -/
theorem IsWideWith_mono (a : AddrSet) (v4 v6 v4b v6b : Int) (h4 : v4 ≤ v4b) (h6 : v6 ≤ v6b)
    (h : a.IsWideWith v4 v6 = true) : a.IsWideWith v4b v6b = true := by
  unfold AddrSet.IsWideWith at h ⊢
  by_cases hAny : a.Any = true
  · simp [hAny]
  · rw [if_neg hAny] at h ⊢
    rw [List.any_eq_true] at h ⊢
    obtain ⟨n, hn, hw⟩ := h
    refine ⟨n, hn, ?_⟩
    by_cases hf : (To4 n.IP).isSome = true
    · simp only [hf, if_true, decide_eq_true_eq] at hw ⊢
      omega
    · simp only [hf, Bool.false_eq_true, if_false, decide_eq_true_eq] at hw ⊢
      omega

/-- The `wideAddress` findings of one rule: the finding of the rule when it is of the
host family and its address is wide at the thresholds in force, none otherwise. -/
theorem simpleRuleIssues_wide (lib : StdLib) (c : Config) (r : Rule) :
    (simpleRuleIssues lib c r).filter (fun f => f.Code == "wideAddress") =
      if r.IsHost && r.Addr.IsWideWith c.WideV4 c.WideV6 then [wideAddressIssue r]
      else [] := by
  unfold simpleRuleIssues
  simp only [List.filter_append]
  simp only [apply_ite (List.filter _), List.filter_cons, List.filter_nil]
  simp +decide only [if_false, List.append_nil, List.nil_append, ite_self,
    beq_self_eq_true, if_true]
  have hcc : List.filter (fun f : Issue => f.Code == "wideAddress")
      (match AList.lookup "clientcert" r.Opts with
        | some v =>
          if (r.Type_ != "hostssl") = true then
            [{ Severity := SeverityError, Code := "clientcertNonHostssl", Line := r.Line,
               Message := "clientcert is allowed only for hostssl." }]
          else
            if (lib.ToLower v != "verify-ca" && lib.ToLower v != "verify-full") = true then
              [{ Severity := SeverityError, Code := "clientcertInvalid", Line := r.Line,
                 Message := "clientcert must be verify-ca or verify-full." }]
            else []
        | none => []) = [] := by
    cases AList.lookup "clientcert" r.Opts with
    | none => rfl
    | some v =>
      simp only []
      split
      · rfl
      · split <;> rfl
  rw [hcc, List.append_nil]
  rfl

/-- A finding of code `wideAddress` is among the findings of `CheckSimpleRules` exactly
when it is the `wideAddress` finding of a host-family rule of the list whose address
is wide at the thresholds in force. -/
theorem mem_CheckSimpleRules_wide (lib : StdLib) (rules : List Rule) (cfg : Config)
    (f : Issue) :
    (f ∈ CheckSimpleRules lib rules cfg ∧ f.Code = "wideAddress") ↔
      ∃ r ∈ rules, (r.IsHost && r.Addr.IsWideWith (withDefaults cfg).WideV4
          (withDefaults cfg).WideV6) = true ∧ f = wideAddressIssue r := by
  have hmem : (f ∈ CheckSimpleRules lib rules cfg ∧ f.Code = "wideAddress") ↔
      f ∈ (CheckSimpleRules lib rules cfg).filter (fun f => f.Code == "wideAddress") := by
    rw [List.mem_filter, beq_iff_eq]
  rw [hmem, CheckSimpleRules_eq_flatMap, List.filter_flatMap, List.mem_flatMap]
  constructor
  · rintro ⟨r, hr, hf⟩
    rw [simpleRuleIssues_wide] at hf
    split at hf
    · rename_i hc
      exact ⟨r, hr, hc, List.mem_singleton.1 hf⟩
    · cases hf
  · rintro ⟨r, hr, hc, hf⟩
    refine ⟨r, hr, ?_⟩
    rw [simpleRuleIssues_wide, if_pos hc, hf]
    exact List.mem_singleton.2 rfl

/-- C23. Zero threshold means default: `CheckSimpleRules` with `WideV4 = 0` returns
the findings it returns with `WideV4 = 16`, and with `WideV6 = 0` those it returns
with `WideV6 = 48`. Hence every `wideAddress` finding at the configured threshold 1
is a finding at the configured threshold 0, while `10.0.0.0/8` is flagged as
`wideAddress` at 0 and not at 1: the reporting is not monotone in the configured
threshold. -/
theorem zero_threshold_default (lib : StdLib) (rules : List Rule) (cfg : Config) :
    CheckSimpleRules lib rules { cfg with WideV4 := 0 }
        = CheckSimpleRules lib rules { cfg with WideV4 := 16 }
      ∧ CheckSimpleRules lib rules { cfg with WideV6 := 0 }
        = CheckSimpleRules lib rules { cfg with WideV6 := 48 }
      ∧ (∀ f ∈ CheckSimpleRules lib rules { cfg with WideV4 := 1 }, f.Code = "wideAddress" →
          f ∈ CheckSimpleRules lib rules { cfg with WideV4 := 0 })
      ∧ wideAddressIssue net8Rule ∈ CheckSimpleRules lib [net8Rule] { cfg with WideV4 := 0 }
      ∧ ∀ f ∈ CheckSimpleRules lib [net8Rule] { cfg with WideV4 := 1 },
          f.Code ≠ "wideAddress" := by
  refine ⟨?_, ?_, ?_, ?_, ?_⟩
  · unfold CheckSimpleRules
    rfl
  · unfold CheckSimpleRules
    rfl
  · intro f hf hc
    obtain ⟨r, hr, hw, hfr⟩ := (mem_CheckSimpleRules_wide lib _ _ f).1 ⟨hf, hc⟩
    refine ((mem_CheckSimpleRules_wide lib _ _ f).2 ⟨r, hr, ?_, hfr⟩).1
    rw [Bool.and_eq_true] at hw ⊢
    refine ⟨hw.1, ?_⟩
    exact IsWideWith_mono r.Addr 1 _ 16 _ (by decide) (le_refl _) hw.2
  · refine ((mem_CheckSimpleRules_wide lib _ _ _).2
      ⟨net8Rule, List.mem_singleton.2 rfl, ?_, rfl⟩).1
    rfl
  · intro f hf hc
    obtain ⟨r, hr, hw, _⟩ := (mem_CheckSimpleRules_wide lib _ _ f).1 ⟨hf, hc⟩
    rw [List.mem_singleton] at hr
    subst hr
    revert hw
    change false = true → False
    intro h
    cases h

/-- C23 at `host all all 0.0.0.0/0 trust` and at `host mydb app 10.0.0.0/8
scram-sha-256`, with SSL on: the finding of the first rule at threshold 1 is a
finding at threshold 0, and the second rule is flagged at threshold 0. -/
theorem zero_threshold_default_witness :
    CheckSimpleRules exampleLib [trustFirst] { cfgSSL with WideV4 := 0 }
        = CheckSimpleRules exampleLib [trustFirst] { cfgSSL with WideV4 := 16 }
      ∧ wideAddressIssue trustFirst ∈ CheckSimpleRules exampleLib [trustFirst] { cfgSSL with WideV4 := 0 }
      ∧ wideAddressIssue net8Rule ∈ CheckSimpleRules exampleLib [net8Rule] { cfgSSL with WideV4 := 0 } :=
  have h := zero_threshold_default exampleLib [trustFirst] cfgSSL
  ⟨h.1, h.2.2.1 (wideAddressIssue trustFirst) (by decide) rfl, h.2.2.2.1⟩

/-! ## C24: option equality -/

/-- With every key that `a` maps to the empty string present in `b`, function
`optsEqual` decides whether the two maps have the same keys with the same values. -/
theorem optsEqual_iff_of_empty_present (a b : OptMap)
    (hP : ∀ k, a.lookup k = some "" → b.lookup k ≠ none) :
    optsEqual a b = true ↔ ∀ k, a.lookup k = b.lookup k := by
  constructor
  · intro hE
    have hlen : a.entries.length = b.entries.length := by
      unfold optsEqual at hE
      by_contra hne
      rw [if_pos hne] at hE
      cases hE
    have hall : ∀ e ∈ a.entries, (b.lookup e.1).getD "" = e.2 := by
      unfold optsEqual at hE
      rw [if_neg (by simp [hlen]), List.all_eq_true] at hE
      intro e he
      simpa using hE e he
    have hsub : a.entries ⊆ b.entries := by
      intro e he
      have hv := hall e he
      have ha : a.lookup e.1 = some e.2 := AList.mem_lookup_iff.2 he
      cases hb : b.lookup e.1 with
      | none =>
        rw [hb] at hv
        simp only [Option.getD_none] at hv
        rw [← hv] at ha
        exact absurd hb (hP e.1 ha)
      | some bv =>
        rw [hb] at hv
        simp only [Option.getD_some] at hv
        have hm : bv ∈ b.lookup e.1 := hb
        rw [AList.mem_lookup_iff, hv] at hm
        exact hm
    have hperm : a.entries.Perm b.entries :=
      (List.subperm_of_subset a.nodupKeys.nodup hsub).perm_of_length_le (le_of_eq hlen.symm)
    intro k
    exact AList.perm_lookup hperm
  · exact optsEqual_of_lookup_eq a b

/-- On maps without empty-string values, all that `parseOptions` builds, function
`optsEqual` decides whether the two maps have the same keys with the same values. -/
theorem optsEqual_iff_of_no_empty (a b : OptMap) (hN : ∀ k, a.lookup k ≠ some "") :
    optsEqual a b = true ↔ ∀ k, a.lookup k = b.lookup k :=
  optsEqual_iff_of_empty_present a b (fun k h => absurd h (hN k))

/-- C24, as stated, fails. The maps `x ↦ ""` and `y ↦ z` have different keys: `x` is
a key of the first only, `y` of the second only. Function `optsEqual` returns true
on them: the lengths agree and the read of the absent key `x` in the second map
gives the empty string, the value of `x` in the first. The pair does not pass
`optsNotStricter`, so it never reaches `optsEqual` inside `CheckOverlaps`. -/
theorem optsEqual_confuses_absent_with_empty :
    optsEqual optsEmptyX optsYZ = true
      ∧ optsEmptyX.lookup "x" = some "" ∧ optsYZ.lookup "x" = none
      ∧ optsEmptyX.lookup "y" = none ∧ optsYZ.lookup "y" = some "z"
      ∧ optsNotStricter optsEmptyX optsYZ = false := by
  decide

/-! ## Auxiliary facts on uniform networks -/

/-- Agreement on a mask passes to every mask contained in it. -/
theorem land_weaken {x y ma mb : Nat} (h : x &&& mb = y &&& mb) (hn : ma &&& mb = ma) :
    x &&& ma = y &&& ma := by
  calc x &&& ma = x &&& (ma &&& mb) := by rw [hn]
    _ = (x &&& mb) &&& ma := by rw [Nat.and_comm ma, Nat.and_assoc]
    _ = (y &&& mb) &&& ma := by rw [h]
    _ = y &&& (ma &&& mb) := by rw [Nat.and_comm ma, Nat.and_assoc]
    _ = y &&& ma := by rw [hn]

/-- Uniform networks of one family have network numbers of one length. -/
theorem Uniform_length_eq {a b : IPNet} (ha : a.Uniform = true) (hb : b.Uniform = true)
    (hf : sameFamily a b = true) :
    ((To4 a.IP).getD a.IP).length = ((To4 b.IP).getD b.IP).length := by
  have hfam : (To4 a.IP).isSome = (To4 b.IP).isSome := by
    simpa [sameFamily] using hf
  rw [(Uniform_shape ha).2.2, (Uniform_shape hb).2.2, hfam]

/-- Between uniform networks of one family, the mask of fewer ones is contained in
the mask of more ones, byte by byte. -/
theorem Uniform_mask_nested {a b : IPNet} (ha : a.Uniform = true) (hb : b.Uniform = true)
    (hf : sameFamily a b = true) (hle : maskOnes a.Mask ≤ maskOnes b.Mask) (i : Nat) :
    a.Mask.getD i 0 &&& b.Mask.getD i 0 = a.Mask.getD i 0 := by
  have hlen := Uniform_length_eq ha hb hf
  rw [(Uniform_shape ha).2.1, (Uniform_shape hb).2.1, ← hlen]
  exact cidrMaskBytes_nested _ _ _ i hle

/-- A uniform network is well formed. -/
theorem Uniform_WellFormed {n : IPNet} (h : n.Uniform = true) : n.WellFormed = true := by
  simp only [IPNet.Uniform, Bool.and_eq_true] at h
  exact h.1

/-- Two uniform networks of one family that share an address: the one of fewer ones
contains the address of the other. -/
theorem Contains_of_common {a b : IPNet} (ha : a.Uniform = true) (hb : b.Uniform = true)
    (hf : sameFamily a b = true) (hle : maskOnes a.Mask ≤ maskOnes b.Mask) (ip : List Nat)
    (hia : a.Contains ip = true) (hib : b.Contains ip = true) :
    a.Contains b.IP = true := by
  have hna := (Uniform_shape ha).1
  have hnb := (Uniform_shape hb).1
  have hlen := Uniform_length_eq ha hb hf
  have h1 := (Contains_iff ip hna).1 hia
  have h2 := (Contains_iff ip hnb).1 hib
  rw [Contains_iff b.IP hna]
  refine ⟨hlen.symm, ?_⟩
  intro i hi
  rw [h1.2 i hi]
  exact (land_weaken (h2.2 i (by rw [← hlen]; exact hi))
    (Uniform_mask_nested ha hb hf hle i)).symm

/-- Function `sameFamily` is symmetric. -/
theorem sameFamily_symm {a b : IPNet} (h : sameFamily a b = true) :
    sameFamily b a = true := by
  simp only [sameFamily, beq_iff_eq] at h ⊢
  exact h.symm

/-- Function `sameFamily` is transitive. -/
theorem sameFamily_trans {a b c : IPNet} (h1 : sameFamily a b = true)
    (h2 : sameFamily b c = true) : sameFamily a c = true := by
  simp only [sameFamily, beq_iff_eq] at h1 h2 ⊢
  exact h1.trans h2

/-- Function `cidrContains` unfolded. -/
theorem cidrContains_iff (a b : IPNet) :
    cidrContains a b = true ↔ (a.Contains b.IP = true ∧ maskOnes a.Mask ≤ maskOnes b.Mask) := by
  unfold cidrContains
  cases hC : a.Contains b.IP <;> simp

/-- Function `cidrOverlaps` unfolded. -/
theorem cidrOverlaps_iff (a b : IPNet) :
    cidrOverlaps a b = true ↔ (a.Contains b.IP = true ∨ b.Contains a.IP = true) := by
  unfold cidrOverlaps
  rw [Bool.or_eq_true]

/-- Uniform blocks of one family are nested or disjoint: they overlap iff one of them
contains the other. -/
theorem nested_or_disjoint_uniform {a b : IPNet} (ha : a.Uniform = true)
    (hb : b.Uniform = true) (hf : sameFamily a b = true) :
    cidrOverlaps a b = true ↔ (cidrContains a b = true ∨ cidrContains b a = true) := by
  rw [cidrOverlaps_iff, cidrContains_iff, cidrContains_iff]
  have hsa := Contains_self (Uniform_WellFormed ha)
  have hsb := Contains_self (Uniform_WellFormed hb)
  constructor
  · rintro (h | h)
    · by_cases hle : maskOnes a.Mask ≤ maskOnes b.Mask
      · exact Or.inl ⟨h, hle⟩
      · have hle2 : maskOnes b.Mask ≤ maskOnes a.Mask := by omega
        exact Or.inr ⟨Contains_of_common hb ha (sameFamily_symm hf) hle2 b.IP hsb h, hle2⟩
    · by_cases hle : maskOnes b.Mask ≤ maskOnes a.Mask
      · exact Or.inr ⟨h, hle⟩
      · have hle2 : maskOnes a.Mask ≤ maskOnes b.Mask := by omega
        exact Or.inl ⟨Contains_of_common ha hb hf hle2 a.IP hsa h, hle2⟩
  · rintro (h | h)
    · exact Or.inl h.1
    · exact Or.inr h.1

/-- Uniform blocks of one family overlap iff some address lies in both. -/
theorem overlaps_iff_common_uniform {a b : IPNet} (ha : a.Uniform = true)
    (hb : b.Uniform = true) (hf : sameFamily a b = true) :
    cidrOverlaps a b = true ↔ ∃ ip, a.Contains ip = true ∧ b.Contains ip = true := by
  rw [cidrOverlaps_iff]
  have hsa := Contains_self (Uniform_WellFormed ha)
  have hsb := Contains_self (Uniform_WellFormed hb)
  constructor
  · rintro (h | h)
    · exact ⟨b.IP, h, hsb⟩
    · exact ⟨a.IP, hsa, h⟩
  · rintro ⟨ip, hia, hib⟩
    by_cases hle : maskOnes a.Mask ≤ maskOnes b.Mask
    · exact Or.inl (Contains_of_common ha hb hf hle ip hia hib)
    · exact Or.inr (Contains_of_common hb ha (sameFamily_symm hf) (by omega) ip hib hia)

/-- Between uniform networks of one family `cidrContains` is transitive. -/
theorem cidrContains_trans_uniform {a b c : IPNet} (ha : a.Uniform = true)
    (hb : b.Uniform = true) (hab : sameFamily a b = true)
    (h1 : cidrContains a b = true) (h2 : cidrContains b c = true) :
    cidrContains a c = true := by
  rw [cidrContains_iff] at h2 ⊢
  refine ⟨cidrContains_sound ha hb hab h1 c.IP h2.1, ?_⟩
  have := ((cidrContains_iff a b).1 h1).2
  omega

/-- Address cover is transitive on uniform networks. -/
theorem Covers_trans_uniform (A B C : AddrSet)
    (hUA : ∀ n ∈ A.Networks, n.Uniform = true) (hUB : ∀ n ∈ B.Networks, n.Uniform = true)
    (h1 : A.Covers B = true) (h2 : B.Covers C = true) : A.Covers C = true := by
  unfold AddrSet.Covers at h1 h2 ⊢
  by_cases hA : A.Any = true
  · simp [hA]
  · rw [if_neg hA] at h1 ⊢
    by_cases hB : B.Any = true
    · rw [if_pos hB] at h1
      cases h1
    · rw [if_neg hB] at h1 h2
      by_cases hC : C.Any = true
      · rw [if_pos hC] at h2
        cases h2
      · rw [if_neg hC] at h2 ⊢
        by_cases hCe : C.Networks.length = 0
        · rw [if_pos hCe] at h2
          cases h2
        · rw [if_neg hCe] at h2 ⊢
          by_cases hBe : B.Networks.length = 0
          · rw [if_pos hBe] at h1
            cases h1
          · rw [if_neg hBe, List.all_eq_true] at h1
            rw [List.all_eq_true] at h2 ⊢
            intro cn hcn
            obtain ⟨bn, hbn, hbc⟩ := List.any_eq_true.1 (h2 cn hcn)
            obtain ⟨an, han, hab⟩ := List.any_eq_true.1 (h1 bn hbn)
            rw [Bool.and_eq_true] at hab hbc
            rw [List.any_eq_true]
            refine ⟨an, han, ?_⟩
            rw [Bool.and_eq_true]
            exact ⟨sameFamily_trans hab.1 hbc.1,
              cidrContains_trans_uniform (hUA an han) (hUB bn hbn) hab.1 hab.2 hbc.2⟩

/-- For address sets that are not `Any` and hold one uniform network each: they
intersect iff one covers the other, and they intersect without the first covering
the second exactly when the second network contains the address of the first under
a strictly shorter mask. -/
theorem single_network_uniform (A B : AddrSet) (a b : IPNet)
    (hA : A.Any = false) (hB : B.Any = false)
    (hNA : A.Networks = [a]) (hNB : B.Networks = [b])
    (ha : a.Uniform = true) (hb : b.Uniform = true) :
    (A.Intersects B = true ↔ (A.Covers B = true ∨ B.Covers A = true))
      ∧ ((A.Intersects B = true ∧ A.Covers B = false) ↔
          (sameFamily b a = true ∧ b.Contains a.IP = true
            ∧ maskOnes b.Mask < maskOnes a.Mask)) := by
  have hI : A.Intersects B = (sameFamily a b && cidrOverlaps a b) := by
    simp [AddrSet.Intersects, hA, hB, hNA, hNB]
  have hC1 : A.Covers B = (sameFamily a b && cidrContains a b) := by
    simp [AddrSet.Covers, hA, hB, hNA, hNB]
  have hC2 : B.Covers A = (sameFamily b a && cidrContains b a) := by
    simp [AddrSet.Covers, hA, hB, hNA, hNB]
  rw [hI, hC1, hC2]
  cases hf : sameFamily a b with
  | false =>
    have hf2 : sameFamily b a = false := by
      rw [Bool.eq_false_iff] at hf ⊢
      exact fun h => hf (sameFamily_symm h)
    simp [hf2]
  | true =>
    have hf2 : sameFamily b a = true := sameFamily_symm hf
    have hnd := nested_or_disjoint_uniform ha hb hf
    simp only [hf2, Bool.true_and, true_and]
    refine ⟨hnd, ?_⟩
    constructor
    · rintro ⟨ho, hn⟩
      rcases hnd.1 ho with h | h
      · rw [h] at hn
        cases hn
      · rw [cidrContains_iff] at h
        refine ⟨h.1, ?_⟩
        by_contra hlt
        have hle : maskOnes a.Mask ≤ maskOnes b.Mask := by omega
        have hc : cidrContains a b = true :=
          (cidrContains_iff a b).2
            ⟨Contains_of_common ha hb hf hle a.IP
              (Contains_self (Uniform_WellFormed ha)) h.1, hle⟩
        rw [hc] at hn
        cases hn
    · rintro ⟨hc, hlt⟩
      refine ⟨(cidrOverlaps_iff a b).2 (Or.inr hc), ?_⟩
      rw [Bool.eq_false_iff]
      intro h
      have := ((cidrContains_iff a b).1 h).2
      omega

/-! ## C21: nested or disjoint -/

/-- C21 at its failing input. The network of the IPv4-mapped literal
`::ffff:10.0.0.0/104` and the network of `10.1.0.0/16` are well formed and of the
same family for `sameFamily`. They overlap, the first containing `10.1.0.0`, but
`cidrContains` holds in neither direction: the mask sizes compare as 104 > 16, and
the second network does not contain `10.0.0.0`. So the two address sets intersect
while neither covers the other, and the pair of rules is reported as a partial
overlap although the later network does not contain the earlier one. -/
theorem overlap_without_containment_on_mapped :
    mapped104.WellFormed = true ∧ (cidr4 10 1 0 0 16).WellFormed = true
      ∧ sameFamily mapped104 (cidr4 10 1 0 0 16) = true
      ∧ cidrOverlaps mapped104 (cidr4 10 1 0 0 16) = true
      ∧ cidrContains mapped104 (cidr4 10 1 0 0 16) = false
      ∧ cidrContains (cidr4 10 1 0 0 16) mapped104 = false
      ∧ rejectMapped.Addr.Networks = [mapped104]
      ∧ trustSub.Addr.Networks = [cidr4 10 1 0 0 16]
      ∧ rejectMapped.Addr.Intersects trustSub.Addr = true
      ∧ rejectMapped.Addr.Covers trustSub.Addr = false
      ∧ trustSub.Addr.Covers rejectMapped.Addr = false
      ∧ (cidr4 10 1 0 0 16).Contains mapped104.IP = false
      ∧ CheckOverlaps [rejectMapped, trustSub] =
          [{ Severity := "WARN", Code := "partialOverlap", Line := 2,
             Message := "Rule partially overlaps with line 1." }] := by
  decide

/-! ## C22: transitivity of the address cover -/

/-- C22 at its failing input. The address sets of `10.0.0.0/20`, of the IPv4-mapped
literal `::ffff:10.0.0.1/100` and of the IPv4-mapped literal `::ffff:12.0.0.1/128`
are well formed; the first covers the second (mask sizes 20 ≤ 100) and the second
covers the third (its 16-byte mask leaves 4 bits on an IPv4 address, and
100 ≤ 128), but the first does not cover the third: `10.0.0.0/20` does not contain
`12.0.0.1`. -/
theorem cover_not_transitive_on_mapped :
    (addrCIDR4 "10.0.0.0/20" 10 0 0 0 20).WellFormed = true
      ∧ (addrMapped "::ffff:10.0.0.1/100" 10 0 0 1 100).WellFormed = true
      ∧ (addrMapped "::ffff:12.0.0.1/128" 12 0 0 1 128).WellFormed = true
      ∧ (addrCIDR4 "10.0.0.0/20" 10 0 0 0 20).Covers
          (addrMapped "::ffff:10.0.0.1/100" 10 0 0 1 100) = true
      ∧ (addrMapped "::ffff:10.0.0.1/100" 10 0 0 1 100).Covers
          (addrMapped "::ffff:12.0.0.1/128" 12 0 0 1 128) = true
      ∧ (addrCIDR4 "10.0.0.0/20" 10 0 0 0 20).Covers
          (addrMapped "::ffff:12.0.0.1/128" 12 0 0 1 128) = false := by
  decide

/-! ## C16: loopback-only classification -/

/-- On uniform networks the test of `IsLoopbackOnly` is sound: every address contained
in a network of a loopback-only address set lies in `127.0.0.0/8` or in `::1/128`. -/
theorem IsLoopbackOnly_sound_uniform (a : AddrSet)
    (hU : ∀ n ∈ a.Networks, n.Uniform = true) (hL : a.IsLoopbackOnly = true)
    (n : IPNet) (hn : n ∈ a.Networks) (ip : List Nat) (hip : n.Contains ip = true) :
    loop4.Contains ip = true ∨ loop6.Contains ip = true := by
  unfold AddrSet.IsLoopbackOnly at hL
  split at hL
  · cases hL
  · split at hL
    · cases hL
    · rw [List.all_eq_true] at hL
      have h := hL n hn
      have hu4 : loop4.Uniform = true := by decide
      have hu6 : loop6.Uniform = true := by decide
      cases hx : (To4 n.IP).isSome with
      | true =>
        rw [hx] at h
        simp only [if_true] at h
        have hf : sameFamily loop4 n = true := by
          have h4 : (To4 loop4.IP).isSome = true := by decide
          simp [sameFamily, h4, hx]
        exact Or.inl (cidrContains_sound hu4 (hU n hn) hf h ip hip)
      | false =>
        rw [hx] at h
        simp only [Bool.false_eq_true, if_false] at h
        have hf : sameFamily loop6 n = true := by
          have h6 : (To4 loop6.IP).isSome = false := by decide
          simp [sameFamily, h6, hx]
        exact Or.inr (cidrContains_sound hu6 (hU n hn) hf h ip hip)

/-- C16 at its failing input. The address set of the IPv4-mapped literal
`::ffff:127.0.0.1/96` is well formed, not `Any`, and holds one network, with an IPv4
address. `IsLoopbackOnly` returns true on it: the address has first byte 127 and
the mask sizes compare as 8 ≤ 96. Yet the network is not contained in `127.0.0.0/8`:
it contains `8.8.8.8`, which `127.0.0.0/8` does not. With SSL on, the rule gets no
`nonTLSPath` finding, which the rule `host mydb app 8.8.8.8/32 scram-sha-256` gets. -/
theorem loopback_only_admits_mapped :
    loopMapped.Addr.WellFormed = true ∧ loopMapped.Addr.Any = false
      ∧ loopMapped.Addr.Networks.all (fun n => (To4 n.IP).isSome) = true
      ∧ loopMapped.Addr.IsLoopbackOnly = true
      ∧ loopMapped.Addr.Networks.any (fun n => n.Contains [8, 8, 8, 8]) = true
      ∧ loop4.Contains [8, 8, 8, 8] = false
      ∧ (CheckSimpleRules exampleLib [loopMapped] cfgSSL).map (fun f => f.Code) = []
      ∧ (CheckSimpleRules exampleLib [publicHost] cfgSSL).map (fun f => f.Code)
          = ["nonTLSPath"] := by
  decide

/-! ## C24: option equality, amended -/

/-- C24, amended. Structural option equality: when `optsNotStricter a b` holds, as it
does wherever the code calls `optsEqual`, or when every key that `a` maps to the
empty string is a key of `b`, as for the maps without empty-string values that
`parseOptions` builds, `optsEqual a b` is true iff `a` and `b` have the same keys
with the same values, maps that contain empty-string values included. -/
theorem structural_option_equality (a b : OptMap) :
    (optsNotStricter a b = true →
        (optsEqual a b = true ↔ ∀ k, a.lookup k = b.lookup k))
      ∧ ((∀ k, a.lookup k = some "" → b.lookup k ≠ none) →
        (optsEqual a b = true ↔ ∀ k, a.lookup k = b.lookup k)) :=
  ⟨optsEqual_iff_of_notStricter a b, optsEqual_iff_of_empty_present a b⟩

/-- C24, amended, at the map `x ↦ ""` against itself, and at the maps `x ↦ ""` and
`y ↦ z` the other way round: `y ↦ z` holds no empty-string value. -/
theorem structural_option_equality_witness :
    (optsEqual optsEmptyX optsEmptyX = true ↔
        ∀ k, optsEmptyX.lookup k = optsEmptyX.lookup k)
      ∧ (optsEqual optsYZ optsEmptyX = true ↔
        ∀ k, optsYZ.lookup k = optsEmptyX.lookup k) :=
  ⟨(structural_option_equality optsEmptyX optsEmptyX).1 (by decide),
   (structural_option_equality optsYZ optsEmptyX).2 (fun k h => by
      have hk : k = "y" ∨ k ≠ "y" := Classical.em _
      rcases hk with rfl | hk
      · exact absurd h (by decide)
      · have : optsYZ.lookup k = none := by
          rw [AList.lookup_eq_none]
          simpa [optsYZ, AList.mem_keys, AList.keys_singleton] using hk
        rw [this] at h
        cases h)⟩

end hba
